import Mathlib

/-!
Verification of the mbsync (isync) synchronization engine, `src/sync.c`.

This file gives a shallow embedding of the data model and the algorithms of
the sync engine — the sync-state file codec, the write-ahead journal replay,
the TUID matcher, the propagation planner's per-message and per-record
decisions, the expiration commit, the final purge, and the per-callback error
handling — and proves or refutes the frozen claims about them.

Conventions of the embedding:
- C `int` values (UIDs, UIDVALIDITY, maxuid, smaxxuid) are modelled as `Int`.
- C `unsigned char` flag/status bytes are modelled as `Nat`; the C bitwise
  complement on these bytes, `a & ~b`, is modelled by `cAndNot a b`
  (an AND against the low-8-bit complement, which agrees with C whenever the
  result is stored back into an 8-bit field, as it always is here).
- The two sides are indexed by `t : Nat` with master = 0 and slave = 1,
  exactly as in the C code (`M`/`S`); `1 - t` is the opposite side.
- File contents are `List Char`; the state-file writer and parser work on the
  raw character stream, mirroring `Fprintf`/`fgets`/`sscanf` behaviour
  (modulo the 128-byte line buffer and the 63-byte token caps, which are never
  reached by well-formed data since every written token is under 35 bytes).
- The journal file is modelled at entry granularity (`JEntry`), i.e. already
  tokenized; the version-line handling of the journal is elided.
-/

/-! ## Constants from `isync.h` and `sync.c` -/

def F_DRAFT : Nat := 1
def F_FLAGGED : Nat := 2
def F_ANSWERED : Nat := 4
def F_SEEN : Nat := 8
def F_DELETED : Nat := 16

def M_RECENT : Nat := 1
def M_DEAD : Nat := 2
def M_FLAGS : Nat := 4

def OP_NEW : Nat := 1
def OP_RENEW : Nat := 2
def OP_DELETE : Nat := 4
def OP_FLAGS : Nat := 8
def OP_EXPUNGE : Nat := 16
def OP_CREATE : Nat := 32

def S_DEAD : Nat := 1
def S_DONE : Nat := 2

/-- `S_DEL(ms)` from sync.c: bit `2 + ms`. -/
def S_DEL (ms : Nat) : Nat := 1 <<< (2 + ms)

def S_EXPIRED : Nat := 16
def S_EXPIRE : Nat := 32
def S_NEXPIRE : Nat := 64
def S_EXP_S : Nat := 128

def SYNC_OK : Nat := 0
def SYNC_FAIL : Nat := 1
def SYNC_NOGOOD : Nat := 16
def SYNC_CANCELED : Nat := 32

def DRV_OK : Nat := 0
def DRV_MSG_BAD : Nat := 1
def DRV_BOX_BAD : Nat := 2
def DRV_CANCELED : Nat := 3

def TUIDL : Nat := 12

/-- C `a & ~b` on 8-bit flag/status bytes (`b` is always an 8-bit mask). -/
def cAndNot (a b : Nat) : Nat := a &&& (b ^^^ 255)

/-! ## Data model -/

/-- `sync_rec_t` from sync.c (without the transient message back-pointers;
`tuid = []` models `tuid[0] == 0`). -/
structure sync_rec where
  uidM : Int
  uidS : Int
  status : Nat
  flags : Nat
  aflagsM : Nat
  aflagsS : Nat
  dflagsM : Nat
  dflagsS : Nat
  tuid : List Char
deriving DecidableEq, Repr

/-- `uid[t]` of a sync record. -/
def sync_rec.uid (r : sync_rec) (t : Nat) : Int :=
  if t = 0 then r.uidM else r.uidS

/-- Set `uid[t]` of a sync record. -/
def sync_rec.setUid (r : sync_rec) (t : Nat) (v : Int) : sync_rec :=
  if t = 0 then { r with uidM := v } else { r with uidS := v }

/-- `message_t` from isync.h (the fields the engine reads; `srec` is the
back-pointer to the paired record, modelled as an optional record value). -/
structure message where
  uid : Int
  flags : Nat
  size : Nat
  status : Nat
  tuid : List Char
deriving DecidableEq, Repr

/-! ## Flag string codec (`make_flags` / `parse_flags` of sync.c) -/

/-- `make_flags` of sync.c: emit the subset of `DFRST` present in `flags`,
in that fixed order (the C loop over `Flags[] = {D,F,R,S,T}`, unrolled). -/
def make_flags (flags : Nat) : List Char :=
  (if flags &&& 1 != 0 then ['D'] else []) ++
  (if flags &&& 2 != 0 then ['F'] else []) ++
  (if flags &&& 4 != 0 then ['R'] else []) ++
  (if flags &&& 8 != 0 then ['S'] else []) ++
  (if flags &&& 16 != 0 then ['T'] else [])

/-- One iteration of the `parse_flags` loop of sync.c: if the current char of
the buffer is the expected flag letter, set the bit and advance. -/
def pfStep (c : Char) (bit : Nat) : Nat × List Char → Nat × List Char
  | (f, buf) =>
    match buf with
    | b :: rest => if b = c then (f ||| bit, rest) else (f, b :: rest)
    | [] => (f, [])

/-- `parse_flags` of sync.c: greedy in-order scan for `D`, `F`, `R`, `S`, `T`
(trailing characters are ignored, exactly as in C). -/
def parse_flags (buf : List Char) : Nat :=
  (pfStep 'T' 16 (pfStep 'S' 8 (pfStep 'R' 4 (pfStep 'F' 2 (pfStep 'D' 1 (0, buf)))))).1

/-! ## Generic bitwise helper lemmas (C flag arithmetic) -/

theorem nat_land_lor_right (a b c : Nat) : (a ||| b) &&& c = (a &&& c) ||| (b &&& c) := by
  apply Nat.eq_of_testBit_eq
  intro i
  simp [Nat.testBit_and, Nat.testBit_or, Bool.and_or_distrib_right]

theorem nat_land_self_right (a b : Nat) : (a &&& b) &&& b = a &&& b := by
  rw [Nat.land_assoc]
  apply Nat.eq_of_testBit_eq
  intro i
  simp [Nat.testBit_and]

theorem nat_lor_self_right (a b : Nat) : (a ||| b) ||| b = a ||| b := by
  rw [Nat.lor_assoc]
  apply Nat.eq_of_testBit_eq
  intro i
  simp [Nat.testBit_or]

/-- Setting bit 5 (`S_EXPIRE`) does not change bit 4 (`S_EXPIRED`). -/
theorem land16_of_lor32 (s : Nat) : (s ||| 32) &&& 16 = s &&& 16 := by
  rw [nat_land_lor_right]
  show s &&& 16 ||| 0 = s &&& 16
  simp

/-- Clearing bit 5 (`S_EXPIRE`) does not change bit 4 (`S_EXPIRED`). -/
theorem land16_of_clear32 (s : Nat) : (cAndNot s 32) &&& 16 = s &&& 16 := by
  show (s &&& 223) &&& 16 = s &&& 16
  rw [Nat.land_assoc]
  have h : (223 &&& 16 : Nat) = 16 := by decide
  rw [h]

/-- Setting bit 4 (`S_EXPIRED`) does not change bit 5 (`S_EXPIRE`). -/
theorem land32_of_lor16 (s : Nat) : (s ||| 16) &&& 32 = s &&& 32 := by
  rw [nat_land_lor_right]
  show s &&& 32 ||| 0 = s &&& 32
  simp

/-- Clearing bit 4 (`S_EXPIRED`) does not change bit 5 (`S_EXPIRE`). -/
theorem land32_of_clear16 (s : Nat) : (cAndNot s 16) &&& 32 = s &&& 32 := by
  show (s &&& 239) &&& 32 = s &&& 32
  rw [Nat.land_assoc]
  have h : (239 &&& 32 : Nat) = 32 := by decide
  rw [h]

/-- A byte with bit 4 cleared stays clear at bit 4 after any further AND. -/
theorem land16_of_andnot16 (a m : Nat) : ((cAndNot a 16) &&& m) &&& 16 = 0 := by
  show ((a &&& 239) &&& m) &&& 16 = 0
  rw [Nat.land_assoc, Nat.land_assoc, Nat.land_comm m 16, ← Nat.land_assoc 239 16 m]
  show a &&& (0 &&& m) = 0
  simp

/-! ## Phase B: flag-change computation for an existing pair
(`box_loaded`, the "synchronizing old entries" loop, sync.c:1232-1294).
The per-side body (the `for (t = 0; t < 2; t++)` loop at lines 1247-1292)
is modelled as a function of the channel ops for side `t`, the record, the
optional messages on both sides and the `del[]` bits computed by the caller. -/

inductive FlagAction where
  | none
  | propagateDelete
deriving DecidableEq, Repr

structure PhaseBSideOut where
  status : Nat
  aflags : Nat
  dflags : Nat
  act : FlagAction
deriving DecidableEq, Repr

/-- The side-`t` body of the "synchronizing old entries" loop: updates
`S_DEL(t)`, then either propagates a delete (`del[1-t]` and `OP_DELETE`),
or computes `aflags[t]`/`dflags[t]` from the opposite message's flags
(`OP_FLAGS`), with the master-side expiration special case
(`sflags &= ~F_DELETED` when the record is in `S_EXPIRE|S_EXPIRED`
transition and `t = M`). -/
def phaseB_side (ops : Nat) (t : Nat) (srec : sync_rec) (msgT msgO : Option message)
    (delT delO : Bool) : PhaseBSideOut :=
  let st0 :=
    match msgT with
    | some m => if m.flags &&& F_DELETED != 0 then srec.status ||| S_DEL t else srec.status
    | none => srec.status
  if srec.uid t = 0 then ⟨st0, 0, 0, FlagAction.none⟩
  else if delO then
    if ops &&& OP_DELETE != 0 then ⟨st0, 0, 0, FlagAction.propagateDelete⟩
    else ⟨st0, 0, 0, FlagAction.none⟩
  else
    match msgO with
    | none => ⟨st0, 0, 0, FlagAction.none⟩
    | some mo =>
      if srec.uid t < 0 then ⟨st0, 0, 0, FlagAction.none⟩
      else if !delT then
        if ops &&& OP_FLAGS != 0 then
          let sflags :=
            if (srec.status &&& (S_EXPIRE ||| S_EXPIRED) != 0) && t == 0 then
              cAndNot mo.flags F_DELETED
            else mo.flags
          ⟨st0, cAndNot sflags srec.flags, cAndNot srec.flags sflags, FlagAction.none⟩
        else ⟨st0, 0, 0, FlagAction.none⟩
      else ⟨st0, 0, 0, FlagAction.none⟩

/-- Claim C4: for every sync record whose status has the `S_EXPIRE` or
`S_EXPIRED` bit set, the Phase-B flag-change computation for the master side
(`t = M = 0`) never puts `F_DELETED` into `aflags[M]`: an expiration-artifact
DELETED flag on the slave is never propagated as a flag addition to the
master (sync.c:1276-1288). -/
theorem claim_C4 (ops : Nat) (srec : sync_rec) (msgT msgO : Option message)
    (delT delO : Bool) (hexp : srec.status &&& (S_EXPIRE ||| S_EXPIRED) ≠ 0) :
    (phaseB_side ops 0 srec msgT msgO delT delO).aflags &&& F_DELETED = 0 := by
  unfold phaseB_side
  rcases msgT with _ | m <;> rcases msgO with _ | mo <;>
    simp only [] <;> split_ifs <;>
    first
    | exact land16_of_andnot16 mo.flags (srec.flags ^^^ 255)
    | simp_all [F_DELETED]

/-- Witness for C4 at a concrete input: a record in expiration transition
with a DELETED slave message, channel ops = `OP_FLAGS`. -/
theorem claim_C4_witness :
    (sync_rec.mk 3 7 S_EXPIRE 0 0 0 0 0 []).status &&& (S_EXPIRE ||| S_EXPIRED) ≠ 0 ∧
    (phaseB_side OP_FLAGS 0 (sync_rec.mk 3 7 S_EXPIRE 0 0 0 0 0 [])
      (some (message.mk 3 0 100 M_FLAGS [])) (some (message.mk 7 F_DELETED 100 M_FLAGS []))
      false false).aflags &&& F_DELETED = 0 :=
  ⟨by decide,
   claim_C4 OP_FLAGS (sync_rec.mk 3 7 S_EXPIRE 0 0 0 0 0 [])
     (some (message.mk 3 0 100 M_FLAGS [])) (some (message.mk 7 F_DELETED 100 M_FLAGS []))
     false false (by decide)⟩

/-! ## Journal entries
(`box_selected` journal writer/replayer, sync.c:596, 777-909; each constructor
is one opcode of the version-2 journal format). -/

inductive JEntry where
  | newRec (m s : Int)
  | kill (m s : Int)
  | setMaster (m s nu : Int)
  | setSlave (m s nu : Int)
  | updFlags (m s : Int) (f : Nat)
  | expIntent (m s : Int) (b : Bool)
  | expRevert (m s : Int)
  | expCommit (m s : Int)
  | setTuid (m s : Int) (tu : List Char)
  | tuidLost (m s : Int)
  | maxuidM (u : Int)
  | maxuidS (u : Int)
  | newuidM (u : Int)
  | newuidS (u : Int)
  | uidval (um us : Int)
deriving DecidableEq, Repr

/-- The `"<>"[t]` journal opcode: `<` (master UID resolved) for `t = 0`,
`>` (slave UID resolved) otherwise. -/
def JEntry.setSide (t : Nat) (m s nu : Int) : JEntry :=
  if t = 0 then JEntry.setMaster m s nu else JEntry.setSlave m s nu

/-- The `"()"` journal opcode for `maxuid[side]` advanced. -/
def JEntry.maxuidSide (side : Nat) (u : Int) : JEntry :=
  if side = 0 then JEntry.maxuidM u else JEntry.maxuidS u

/-! ## Phase A: propagation of new messages
(`box_loaded`, the "synchronizing new entries" loop, sync.c:1168-1229, and
`msg_copied_p2`, sync.c:1415-1431). -/

/-- The record update of `msg_copied_p2` (sync.c:1418-1423): when the UID
differs, store it and clear the TUID. -/
def msg_copied_p2_rec (t : Nat) (srec : sync_rec) (uid : Int) : sync_rec :=
  if srec.uid t ≠ uid then { srec.setUid t uid with tuid := [] } else srec

/-- `msg_copied_p2` of sync.c: record the (possibly placeholder) UID `uid`
obtained for side `t` (journalling `<`/`>`), and advance `maxuid[1-t]`
(journalling `)`/`(`) when the source message was not yet paired.  Returns
the updated record, the updated `maxuid[1-t]`, and the journal entries
written. -/
def msg_copied_p2 (t : Nat) (srec : sync_rec) (tmsgUid : Int) (tmsgPaired : Bool)
    (maxuidO : Int) (uid : Int) : sync_rec × Int × List JEntry :=
  (msg_copied_p2_rec t srec uid,
   if !tmsgPaired && decide (maxuidO < tmsgUid) then
     (tmsgUid,
      (if srec.uid t ≠ uid then [JEntry.setSide t srec.uidM srec.uidS uid] else []) ++
        [JEntry.maxuidSide (1 - t) tmsgUid])
   else
     (maxuidO, if srec.uid t ≠ uid then [JEntry.setSide t srec.uidM srec.uidS uid] else []))

inductive NewAct where
  | ignored
  | skipExpunge
  | copy
  | skipBig
deriving DecidableEq, Repr

structure NewMsgOut where
  act : NewAct
  srec : Option sync_rec
  maxuidO : Int
  journal : List JEntry
  newTotalInc : Nat
deriving DecidableEq, Repr

/-- One iteration of the "synchronizing new entries" loop of `box_loaded`
(sync.c:1170-1226) for a message `tmsg` living on side `1-t`, considered for
propagation to side `t`.  `srec?` is the record the message is paired with
(`tmsg->srec`), `newTuid` the random TUID that would be allocated, `maxuidO`
the current `maxuid[1-t]`.  Mirrors the code: the condition at line 1171,
the expunge/deleted skip, record reuse or creation (`+` entry), the
FLAGGED-or-small copy scheduling (`*` and `#` entries), and the too-big skip
recorded through `msg_copied_p2` with UID -1. -/
def sync_new_message (ops : Nat) (maxSize : Nat) (t : Nat) (newTuid : List Char)
    (maxuidO : Int) (tmsg : message) (srec? : Option sync_rec) : NewMsgOut :=
  let considered :=
    match srec? with
    | some sr => decide (sr.uid t < 0) &&
        (if sr.uid t == -1 then ops &&& OP_RENEW != 0 else ops &&& OP_NEW != 0)
    | none => ops &&& OP_NEW != 0
  if !considered then ⟨NewAct.ignored, srec?, maxuidO, [], 0⟩
  else if (ops &&& OP_EXPUNGE != 0) && (tmsg.flags &&& F_DELETED != 0) then
    ⟨NewAct.skipExpunge, srec?, maxuidO, [], 0⟩
  else
    let core :=
      match srec? with
      | some sr => ({ sr with status := sr.status ||| S_DONE }, false, ([] : List JEntry))
      | none =>
        let sr : sync_rec :=
          { uidM := if t = 0 then -2 else tmsg.uid
            uidS := if t = 0 then tmsg.uid else -2
            status := S_DONE, flags := 0
            aflagsM := 0, aflagsS := 0, dflagsM := 0, dflagsS := 0, tuid := [] }
        (sr, true, [JEntry.newRec sr.uidM sr.uidS])
    let srec0 := core.1
    let created := core.2.1
    let j0 := core.2.2
    if (tmsg.flags &&& F_FLAGGED != 0) || (tmsg.size ≤ maxSize) then
      let fl :=
        if tmsg.flags ≠ 0 then
          ({ srec0 with flags := tmsg.flags }, [JEntry.updFlags srec0.uidM srec0.uidS tmsg.flags])
        else (srec0, [])
      let srec1 := { fl.1 with tuid := newTuid }
      ⟨NewAct.copy, some srec1, maxuidO,
        j0 ++ fl.2 ++ [JEntry.setTuid srec1.uidM srec1.uidS newTuid], 1⟩
    else
      if created then
        let p2 := msg_copied_p2 t srec0 tmsg.uid false maxuidO (-1)
        ⟨NewAct.skipBig, some p2.1, p2.2.1, j0 ++ p2.2.2, 0⟩
      else ⟨NewAct.skipBig, some srec0, maxuidO, j0, 0⟩

/-- Claim C5: for every unpaired new message considered for propagation to
side `t` (channel has `OP_NEW` for `t`): if the channel has `OP_EXPUNGE` for
`t` and the message carries `F_DELETED`, it is skipped entirely (no record,
no journal); otherwise it is scheduled for copy iff it has `F_FLAGGED` or its
size is at most the destination's `max_size`; and when it is not copied, the
skip is recorded by setting the new record's `uid[t]` to -1 (with `uid[1-t]`
the message's UID), the RENEW trigger (sync.c:1170-1226). -/
theorem claim_C5 (ops maxSize t : Nat) (newTuid : List Char) (maxuidO : Int)
    (tmsg : message) (hNew : ops &&& OP_NEW ≠ 0) :
    ((ops &&& OP_EXPUNGE ≠ 0 ∧ tmsg.flags &&& F_DELETED ≠ 0) →
      sync_new_message ops maxSize t newTuid maxuidO tmsg none =
        ⟨NewAct.skipExpunge, none, maxuidO, [], 0⟩) ∧
    (¬(ops &&& OP_EXPUNGE ≠ 0 ∧ tmsg.flags &&& F_DELETED ≠ 0) →
      (((sync_new_message ops maxSize t newTuid maxuidO tmsg none).act = NewAct.copy ↔
         (tmsg.flags &&& F_FLAGGED ≠ 0 ∨ tmsg.size ≤ maxSize)) ∧
       ((sync_new_message ops maxSize t newTuid maxuidO tmsg none).act ≠ NewAct.copy →
         ∃ r, (sync_new_message ops maxSize t newTuid maxuidO tmsg none).srec = some r ∧
           r.uid t = -1 ∧ r.uid (1 - t) = tmsg.uid))) := by
  have hNewB : (ops &&& OP_NEW != 0) = true := by simpa using hNew
  constructor
  · intro ⟨h1, h2⟩
    have h1b : (ops &&& OP_EXPUNGE != 0) = true := by simpa using h1
    have h2b : (tmsg.flags &&& F_DELETED != 0) = true := by simpa using h2
    simp [sync_new_message, hNewB, h1b, h2b]
  · intro hne
    have hcond : ((ops &&& OP_EXPUNGE != 0) && (tmsg.flags &&& F_DELETED != 0)) = false := by
      rcases Decidable.em (ops &&& OP_EXPUNGE = 0) with h | h
      · simp [h]
      · rcases Decidable.em (tmsg.flags &&& F_DELETED = 0) with h2 | h2
        · simp [h2]
        · exact absurd ⟨h, h2⟩ hne
    by_cases hcp : ((tmsg.flags &&& F_FLAGGED != 0) || decide (tmsg.size ≤ maxSize)) = true
    · refine ⟨?_, ?_⟩
      · simp only [sync_new_message, hNewB, hcond, hcp]
        simp only [Bool.not_true, Bool.false_eq_true, if_false, if_true]
        constructor
        · intro _
          simpa using hcp
        · intro _
          trivial
      · simp [sync_new_message, hNewB, hcond, hcp]
    · have hcp' : ((tmsg.flags &&& F_FLAGGED != 0) || decide (tmsg.size ≤ maxSize)) = false :=
        Bool.eq_false_iff.mpr (fun h => hcp h)
      refine ⟨?_, ?_⟩
      · simp only [sync_new_message, hNewB, hcond, hcp']
        simp only [Bool.not_true, Bool.false_eq_true, if_false, if_true]
        constructor
        · intro hact
          exact absurd hact (by simp)
        · intro hor
          have : ((tmsg.flags &&& F_FLAGGED != 0) || decide (tmsg.size ≤ maxSize)) = true := by
            rcases hor with h | h
            · simp [h]
            · simp [h]
          rw [hcp'] at this
          exact absurd this (by simp)
      · intro _
        by_cases ht : t = 0
        · subst ht
          refine ⟨sync_rec.mk (-1) tmsg.uid S_DONE 0 0 0 0 0 [], ?_,
            by simp [sync_rec.uid], by simp [sync_rec.uid]⟩
          norm_num [sync_new_message, hNewB, hcond, hcp', msg_copied_p2, msg_copied_p2_rec,
            sync_rec.uid, sync_rec.setUid]
        · have h1t : 1 - t = 0 := by omega
          refine ⟨sync_rec.mk tmsg.uid (-1) S_DONE 0 0 0 0 0 [], ?_,
            by simp [sync_rec.uid, ht], by simp [sync_rec.uid, h1t]⟩
          norm_num [sync_new_message, hNewB, hcond, hcp', msg_copied_p2, msg_copied_p2_rec,
            sync_rec.uid, sync_rec.setUid, ht]

/-- Witness for C5 at a concrete input: pulling a too-big, unflagged message
(UID 9, size 1000 over a max of 100) to the master side is not a copy, and
the skip is recorded in a record with `uid[M] = -1`, `uid[S] = 9`. -/
theorem claim_C5_witness :
    ∃ r, (sync_new_message (OP_NEW ||| OP_FLAGS) 100 0 ['A'] 0
        (message.mk 9 0 1000 M_FLAGS []) none).srec = some r ∧
      r.uid 0 = -1 ∧ r.uid (1 - 0) = (message.mk 9 0 1000 M_FLAGS []).uid := by
  have h := (claim_C5 (OP_NEW ||| OP_FLAGS) 100 0 ['A'] 0 (message.mk 9 0 1000 M_FLAGS [])
    (by decide)).2 (by decide)
  exact h.2 (by decide)

/-! ## Character-level primitives for the state file codec
(`Fprintf`-style decimal printing and `sscanf`-style scanning). -/

/-- C `isspace` on the execution character set. -/
def isSpaceB (c : Char) : Bool :=
  c.toNat = 32 || c.toNat = 9 || c.toNat = 10 || c.toNat = 11 || c.toNat = 12 || c.toNat = 13

/-- C `isdigit`. -/
def isDigitB (c : Char) : Bool := 48 ≤ c.toNat && c.toNat ≤ 57

/-- The decimal digit character for `d < 10`. -/
def digitChar (d : Nat) : Char :=
  if d = 0 then '0' else if d = 1 then '1' else if d = 2 then '2' else if d = 3 then '3'
  else if d = 4 then '4' else if d = 5 then '5' else if d = 6 then '6' else if d = 7 then '7'
  else if d = 8 then '8' else '9'

/-- Decimal digits of `n`, most significant first (fuel-driven so that it
reduces by evaluation; `natDigits` supplies adequate fuel). -/
def natDigitsAux : Nat → Nat → List Char
  | 0, _ => []
  | fuel + 1, n =>
    if n < 10 then [digitChar n] else natDigitsAux fuel (n / 10) ++ [digitChar (n % 10)]

def natDigits (n : Nat) : List Char := natDigitsAux (n + 1) n

/-- `printf("%d", i)`: optional minus sign followed by decimal digits. -/
def intToChars (i : Int) : List Char :=
  if i < 0 then '-' :: natDigits i.natAbs else natDigits i.toNat

/-- Greedy digit scan with accumulator (the digit-consuming core of
`sscanf("%d")`). -/
def parseDigitsAcc : List Char → Nat → Nat × List Char
  | c :: cs, acc =>
    if isDigitB c then parseDigitsAcc cs (acc * 10 + (c.toNat - 48)) else (acc, c :: cs)
  | [], acc => (acc, [])

/-- `sscanf("%d")`: skip leading whitespace, optional sign, then at least one
digit; returns the value and the unconsumed input, or `none` on matching
failure. -/
def parseCInt (cs : List Char) : Option (Int × List Char) :=
  match cs.dropWhile isSpaceB with
  | [] => none
  | c :: rest =>
    if c = '-' then
      match rest with
      | [] => none
      | c2 :: _ =>
        if isDigitB c2 then
          match parseDigitsAcc rest 0 with
          | (v, r) => some (-(v : Int), r)
        else none
    else if c = '+' then
      match rest with
      | [] => none
      | c2 :: _ =>
        if isDigitB c2 then
          match parseDigitsAcc rest 0 with
          | (v, r) => some ((v : Int), r)
        else none
    else if isDigitB c then
      match parseDigitsAcc (c :: rest) 0 with
      | (v, r) => some ((v : Int), r)
    else none

/-- `sscanf("%s")`: skip leading whitespace, then take the maximal run of
non-whitespace characters; returns the token and the unconsumed input. -/
def cToken (cs : List Char) : List Char × List Char :=
  ((cs.dropWhile isSpaceB).takeWhile (fun c => !isSpaceB c),
   (cs.dropWhile isSpaceB).dropWhile (fun c => !isSpaceB c))

/-- Split a character stream into `fgets`-style lines: each line keeps its
terminating newline; a trailing newline-less fragment becomes a final line
without `'\n'`. -/
def splitLinesAux : List Char → List Char → List (List Char)
  | [], acc => if acc.isEmpty then [] else [acc.reverse]
  | c :: cs, acc =>
    if c = '\n' then (acc.reverse ++ ['\n']) :: splitLinesAux cs []
    else splitLinesAux cs (c :: acc)

def splitLines (cs : List Char) : List (List Char) := splitLinesAux cs []

/-! ## The sync-state file codec
(writer: `box_closed_p2`, sync.c:1702-1711; parser: `box_selected`,
sync.c:722-768). -/

/-- The header of the state file: `UVm:MUm UVs:Xs:MUs`. -/
structure StateHeader where
  uidvalM : Int
  maxuidM : Int
  uidvalS : Int
  smaxxuid : Int
  maxuidS : Int
deriving DecidableEq, Repr

/-- The header line written by `box_closed_p2`:
`Fprintf(nfp, "%d:%d %d:%d:%d\n", ...)`. -/
def writeHeaderLine (h : StateHeader) : List Char :=
  intToChars h.uidvalM ++ (':' :: (intToChars h.maxuidM ++ (' ' :: (intToChars h.uidvalS ++
    (':' :: (intToChars h.smaxxuid ++ (':' :: (intToChars h.maxuidS ++ ['\n']))))))))

/-- One state-file entry written by `box_closed_p2`:
`Fprintf(nfp, "%d %d %s%s\n", uid[M], uid[S], EXPIRED ? "X" : "", flags)`. -/
def writeEntryLine (r : sync_rec) : List Char :=
  intToChars r.uidM ++ (' ' :: (intToChars r.uidS ++ (' ' ::
    ((if r.status &&& S_EXPIRED != 0 then ['X'] else []) ++ (make_flags r.flags ++ ['\n'])))))

/-- The full state file written by `box_closed_p2`: header, then one entry
per live (non-DEAD) record, in list order. -/
def writeStateFile (h : StateHeader) (recs : List sync_rec) : List Char :=
  writeHeaderLine h ++
    List.flatten ((recs.filter (fun r => r.status &&& S_DEAD == 0)).map writeEntryLine)

/-- `sscanf(buf, "%d:%d", ...) 2`-conversions check of the state header
(master part). -/
def parseIntColonInt (cs : List Char) : Option (Int × Int) :=
  match parseCInt cs with
  | some (a, r0) =>
    match r0 with
    | c :: r1 =>
      if c = ':' then
        match parseCInt r1 with
        | some (b, _) => some (a, b)
        | none => none
      else none
    | [] => none
  | none => none

/-- `sscanf(buf, "%d:%d:%d", ...) 3`-conversions check of the state header
(slave part). -/
def parseIntColon3 (cs : List Char) : Option (Int × Int × Int) :=
  match parseCInt cs with
  | some (a, r0) =>
    match r0 with
    | c :: r1 =>
      if c = ':' then
        match parseCInt r1 with
        | some (b, r2) =>
          match r2 with
          | c2 :: r3 =>
            if c2 = ':' then
              match parseCInt r3 with
              | some (v, _) => some (a, b, v)
              | none => none
            else none
          | [] => none
        | none => none
      else none
    | [] => none
  | none => none

/-- The state-header parser of `box_selected` (sync.c:733-738): two
whitespace-separated tokens, the first scanned as `%d:%d`, the second as
`%d:%d:%d`. -/
def parseHeaderLine (l : List Char) : Option StateHeader :=
  match cToken l with
  | (tok1, rest1) =>
    match cToken rest1 with
    | (tok2, _) =>
      if tok1.isEmpty || tok2.isEmpty then none
      else
        match parseIntColonInt tok1, parseIntColon3 tok2 with
        | some (uvM, muM), some (uvS, sxu, muS) => some (StateHeader.mk uvM muM uvS sxu muS)
        | some _, none => none
        | none, _ => none

/-- The state-entry parser of `box_selected` (sync.c:746-767): scanned as
`%d %d %15s` (the flags token may be absent, leaving `fbuf` empty); a leading
`X` yields status `S_EXPIRE|S_EXPIRED`, the rest goes through `parse_flags`. -/
def parseEntryLine (l : List Char) : Option sync_rec :=
  match parseCInt l with
  | some (t1, r1) =>
    match parseCInt r1 with
    | some (t2, r2) =>
      if ((cToken r2).1.take 15).head? = some 'X' then
        some (sync_rec.mk t1 t2 (S_EXPIRE ||| S_EXPIRED)
          (parse_flags ((cToken r2).1.take 15).tail) 0 0 0 0 [])
      else
        some (sync_rec.mk t1 t2 0 (parse_flags ((cToken r2).1.take 15)) 0 0 0 0 [])
    | none => none
  | none => none

/-- The `fgets` integrity check of `box_selected`: a line must be nonempty
and newline-terminated (sync.c:724, 742). -/
def lineOk (l : List Char) : Bool := !l.isEmpty && l.getLast? == some '\n'

/-- Parse all entry lines of the state file, failing on the first bad line
exactly as the `while (fgets(...))` loop of `box_selected` does. -/
def parseEntryLines : List (List Char) → Option (List sync_rec)
  | [] => some []
  | l :: ls =>
    if !lineOk l then none
    else
      match parseEntryLine l with
      | some r =>
        match parseEntryLines ls with
        | some rs => some (r :: rs)
        | none => none
      | none => none

/-- The state-file load of `box_selected` (sync.c:722-768): header line, then
one record per line. -/
def parseStateFile (content : List Char) : Option (StateHeader × List sync_rec) :=
  match splitLines content with
  | [] => none
  | hl :: rest =>
    if !lineOk hl then none
    else
      match parseHeaderLine hl with
      | some h =>
        match parseEntryLines rest with
        | some rs => some (h, rs)
        | none => none
      | none => none

/-- What the loader reconstructs from a written record: UIDs and flags
verbatim, status reduced to the persisted `S_EXPIRED` information (the
transient `aflags`/`dflags`/`tuid` are not persisted). -/
def loadedForm (r : sync_rec) : sync_rec :=
  sync_rec.mk r.uidM r.uidS
    (if r.status &&& S_EXPIRED != 0 then S_EXPIRE ||| S_EXPIRED else 0)
    r.flags 0 0 0 0 []

/-! ## Round-trip lemmas for the decimal codec -/

theorem digitChar_isDigit (d : Nat) (h : d < 10) : isDigitB (digitChar d) = true := by
  interval_cases d <;> decide

theorem digitChar_toNat (d : Nat) (h : d < 10) : (digitChar d).toNat - 48 = d := by
  interval_cases d <;> decide

theorem natDigitsAux_all_digits (fuel : Nat) :
    ∀ n, n < fuel → ∀ c ∈ natDigitsAux fuel n, isDigitB c = true := by
  induction fuel with
  | zero => intro n hn; omega
  | succ k ih =>
    intro n hn c hc
    unfold natDigitsAux at hc
    by_cases h10 : n < 10
    · rw [if_pos h10] at hc
      rcases List.mem_singleton.mp hc with rfl
      exact digitChar_isDigit n h10
    · rw [if_neg h10] at hc
      rcases List.mem_append.mp hc with h | h
      · have hdiv : n / 10 < n := Nat.div_lt_self (by omega) (by omega)
        exact ih (n / 10) (by omega) c h
      · rcases List.mem_singleton.mp h with rfl
        exact digitChar_isDigit (n % 10) (Nat.mod_lt n (by omega))

theorem natDigits_all_digits (n : Nat) : ∀ c ∈ natDigits n, isDigitB c = true :=
  natDigitsAux_all_digits (n + 1) n (Nat.lt_succ_self n)

theorem natDigitsAux_ne_nil (fuel n : Nat) (h : n < fuel) : natDigitsAux fuel n ≠ [] := by
  cases fuel with
  | zero => omega
  | succ k =>
    unfold natDigitsAux
    by_cases h10 : n < 10 <;> simp [h10]

theorem natDigits_ne_nil (n : Nat) : natDigits n ≠ [] :=
  natDigitsAux_ne_nil (n + 1) n (Nat.lt_succ_self n)

theorem parseDigitsAcc_cons_digit (c : Char) (cs : List Char) (acc : Nat)
    (h : isDigitB c = true) :
    parseDigitsAcc (c :: cs) acc = parseDigitsAcc cs (acc * 10 + (c.toNat - 48)) := by
  simp [parseDigitsAcc, h]

theorem parseDigitsAcc_stop (cs : List Char) (acc : Nat)
    (h : ∀ c, cs.head? = some c → isDigitB c = false) : parseDigitsAcc cs acc = (acc, cs) := by
  cases cs with
  | nil => rfl
  | cons c rest => simp [parseDigitsAcc, h c rfl]

theorem parseDigitsAcc_append (fuel : Nat) :
    ∀ n, n < fuel → ∀ acc rest,
      parseDigitsAcc (natDigitsAux fuel n ++ rest) acc =
        parseDigitsAcc rest (acc * 10 ^ (natDigitsAux fuel n).length + n) := by
  induction fuel with
  | zero => intro n hn; omega
  | succ k ih =>
    intro n hn acc rest
    unfold natDigitsAux
    by_cases h10 : n < 10
    · rw [if_pos h10]
      rw [List.singleton_append, parseDigitsAcc_cons_digit _ _ _ (digitChar_isDigit n h10),
        digitChar_toNat n h10]
      norm_num
    · rw [if_neg h10]
      have hdig : isDigitB (digitChar (n % 10)) = true :=
        digitChar_isDigit (n % 10) (Nat.mod_lt n (by omega))
      rw [List.append_assoc, List.singleton_append,
        ih (n / 10) (by omega) acc (digitChar (n % 10) :: rest),
        parseDigitsAcc_cons_digit _ _ _ hdig,
        digitChar_toNat (n % 10) (Nat.mod_lt n (by omega))]
      have hlen : (natDigitsAux k (n / 10) ++ [digitChar (n % 10)]).length =
          (natDigitsAux k (n / 10)).length + 1 := by simp
      rw [hlen, pow_succ]
      congr 1
      have h1 : (acc * 10 ^ (natDigitsAux k (n / 10)).length + n / 10) * 10 + n % 10 =
          acc * (10 ^ (natDigitsAux k (n / 10)).length * 10) + (10 * (n / 10) + n % 10) := by
        ring
      rw [h1, Nat.div_add_mod n 10]

theorem parseDigitsAcc_natDigits (n acc : Nat) (rest : List Char)
    (h : ∀ c, rest.head? = some c → isDigitB c = false) :
    parseDigitsAcc (natDigits n ++ rest) acc = (acc * 10 ^ (natDigits n).length + n, rest) := by
  rw [show natDigits n = natDigitsAux (n + 1) n from rfl,
    parseDigitsAcc_append (n + 1) n (Nat.lt_succ_self n) acc rest]
  exact parseDigitsAcc_stop rest _ h

theorem isDigitB_not_space (c : Char) (h : isDigitB c = true) : isSpaceB c = false := by
  simp only [isDigitB, Bool.and_eq_true, decide_eq_true_eq] at h
  simp only [isSpaceB, Bool.or_eq_false_iff, decide_eq_false_iff_not]
  omega

theorem dropWhile_isSpaceB_of_head (c : Char) (cs : List Char) (h : isSpaceB c = false) :
    (c :: cs).dropWhile isSpaceB = c :: cs := by
  simp [List.dropWhile, h]

/-- `sscanf("%d")` reads back exactly what `printf("%d")` wrote, leaving the
unconsumed input untouched, provided the next character is not a digit. -/
theorem parseCInt_intToChars (i : Int) (rest : List Char)
    (h : ∀ c, rest.head? = some c → isDigitB c = false) :
    parseCInt (intToChars i ++ rest) = some (i, rest) := by
  by_cases hi : i < 0
  · rcases hd : natDigits i.natAbs with _ | ⟨c, cs⟩
    · exact absurd hd (natDigits_ne_nil _)
    have hdig : isDigitB c = true := by
      apply natDigits_all_digits i.natAbs
      rw [hd]
      exact List.mem_cons_self c cs
    have hres := parseDigitsAcc_natDigits i.natAbs 0 rest h
    rw [hd] at hres
    simp only [List.cons_append, Nat.zero_mul, Nat.zero_add] at hres
    have hival : -((i.natAbs : Nat) : Int) = i := by omega
    unfold intToChars
    rw [if_pos hi, hd]
    simp only [List.cons_append]
    unfold parseCInt
    rw [dropWhile_isSpaceB_of_head '-' _ (by decide)]
    simp only [if_pos (rfl : ('-' : Char) = '-'), hdig, if_true, hres, hival]
  · rcases hd : natDigits i.toNat with _ | ⟨c, cs⟩
    · exact absurd hd (natDigits_ne_nil _)
    have hdig : isDigitB c = true := by
      apply natDigits_all_digits i.toNat
      rw [hd]
      exact List.mem_cons_self c cs
    have hnotsp : isSpaceB c = false := isDigitB_not_space c hdig
    have hne1 : c ≠ '-' := by
      intro hc
      rw [hc] at hdig
      exact absurd hdig (by decide)
    have hne2 : c ≠ '+' := by
      intro hc
      rw [hc] at hdig
      exact absurd hdig (by decide)
    have hres := parseDigitsAcc_natDigits i.toNat 0 rest h
    rw [hd] at hres
    simp only [List.cons_append, Nat.zero_mul, Nat.zero_add] at hres
    have hival : ((i.toNat : Nat) : Int) = i := by omega
    unfold intToChars
    rw [if_neg hi, hd]
    simp only [List.cons_append]
    unfold parseCInt
    rw [dropWhile_isSpaceB_of_head c _ hnotsp]
    simp only [if_neg hne1, if_neg hne2, hdig, if_true, hres, hival]

/-! ## Tokenization and line-splitting lemmas -/

theorem takeWhile_append_all (p : Char → Bool) (xs ys : List Char)
    (h : ∀ c ∈ xs, p c = true) : (xs ++ ys).takeWhile p = xs ++ ys.takeWhile p := by
  induction xs with
  | nil => simp
  | cons x xs ih =>
    simp only [List.cons_append, List.takeWhile_cons, h x (List.mem_cons_self x xs), if_true]
    rw [ih (fun c hc => h c (List.mem_cons_of_mem x hc))]

theorem dropWhile_append_all (p : Char → Bool) (xs ys : List Char)
    (h : ∀ c ∈ xs, p c = true) : (xs ++ ys).dropWhile p = ys.dropWhile p := by
  induction xs with
  | nil => simp
  | cons x xs ih =>
    simp only [List.cons_append, List.dropWhile_cons, h x (List.mem_cons_self x xs), if_true]
    exact ih (fun c hc => h c (List.mem_cons_of_mem x hc))

/-- `cToken` on input starting with a nonempty non-whitespace run followed by
whitespace (or end of input) yields exactly that run. -/
theorem cToken_split (xs ys : List Char) (hxne : xs ≠ [])
    (hx : ∀ c ∈ xs, isSpaceB c = false)
    (hy : ∀ c, ys.head? = some c → isSpaceB c = true) :
    cToken (xs ++ ys) = (xs, ys) := by
  have hx' : ∀ c ∈ xs, (fun c => !isSpaceB c) c = true := by
    intro c hc
    simp [hx c hc]
  have hdrop : (xs ++ ys).dropWhile isSpaceB = xs ++ ys := by
    cases xs with
    | nil => exact absurd rfl hxne
    | cons x xs' =>
      simp only [List.cons_append]
      exact dropWhile_isSpaceB_of_head x _ (hx x (List.mem_cons_self x xs'))
  have htk : (xs ++ ys).takeWhile (fun c => !isSpaceB c) = xs := by
    rw [takeWhile_append_all _ xs ys hx']
    cases ys with
    | nil => simp
    | cons y ys' =>
      simp only [List.takeWhile_cons, hy y rfl]
      simp
  have hdr : (xs ++ ys).dropWhile (fun c => !isSpaceB c) = ys := by
    rw [dropWhile_append_all _ xs ys hx']
    cases ys with
    | nil => simp
    | cons y ys' =>
      simp only [List.dropWhile_cons, hy y rfl]
      simp
  simp only [cToken, hdrop, htk, hdr]

theorem cToken_cons_space (c : Char) (cs : List Char) (h : isSpaceB c = true) :
    cToken (c :: cs) = cToken cs := by
  simp [cToken, List.dropWhile_cons, h]

theorem splitLinesAux_line (core : List Char) (h : ∀ c ∈ core, c ≠ '\n') :
    ∀ acc rest, splitLinesAux (core ++ '\n' :: rest) acc =
      ((acc.reverse ++ core) ++ ['\n']) :: splitLinesAux rest [] := by
  induction core with
  | nil =>
    intro acc rest
    simp [splitLinesAux]
  | cons c core' ih =>
    intro acc rest
    have hc : c ≠ '\n' := h c (List.mem_cons_self c core')
    simp only [List.cons_append, splitLinesAux, if_neg hc, List.append_eq]
    rw [ih (fun d hd => h d (List.mem_cons_of_mem c hd)) (c :: acc) rest]
    simp

theorem splitLines_flatten (ls : List (List Char))
    (h : ∀ l ∈ ls, ∃ core, l = core ++ ['\n'] ∧ ∀ c ∈ core, c ≠ '\n') :
    splitLines ls.flatten = ls := by
  induction ls with
  | nil => rfl
  | cons l ls' ih =>
    rcases h l (List.mem_cons_self l ls') with ⟨core, hl, hcore⟩
    have : (l :: ls').flatten = core ++ '\n' :: ls'.flatten := by
      rw [List.flatten_cons, hl]
      simp
    rw [this]
    unfold splitLines
    rw [splitLinesAux_line core hcore [] ls'.flatten]
    rw [show ((([] : List Char).reverse ++ core) ++ ['\n']) = l by rw [hl]; simp]
    rw [show splitLinesAux ls'.flatten [] = splitLines ls'.flatten from rfl, ih]
    intro l' hl'
    exact h l' (List.mem_cons_of_mem l hl')

/-! ## Character classes of written tokens -/

theorem isSpaceB_eq_false_of_digit_range (c : Char) (h : 48 ≤ c.toNat ∧ c.toNat ≤ 57) :
    isSpaceB c = false := by
  simp only [isSpaceB, Bool.or_eq_false_iff, decide_eq_false_iff_not]
  omega

theorem intToChars_nonspace (i : Int) : ∀ c ∈ intToChars i, isSpaceB c = false := by
  intro c hc
  unfold intToChars at hc
  split at hc
  · rcases List.mem_cons.mp hc with rfl | hmem
    · decide
    · exact isDigitB_not_space c (natDigits_all_digits _ c hmem)
  · exact isDigitB_not_space c (natDigits_all_digits _ c hc)

theorem nonspace_ne_nl (c : Char) (h : isSpaceB c = false) : c ≠ '\n' := by
  intro hc
  rw [hc] at h
  exact absurd h (by decide)

theorem make_flags_mem (f : Nat) (c : Char) (hc : c ∈ make_flags f) :
    c = 'D' ∨ c = 'F' ∨ c = 'R' ∨ c = 'S' ∨ c = 'T' := by
  unfold make_flags at hc
  simp only [List.mem_append] at hc
  rcases hc with ((((h | h) | h) | h) | h) <;> split at h <;> simp_all

theorem make_flags_nonspace (f : Nat) : ∀ c ∈ make_flags f, isSpaceB c = false := by
  intro c hc
  rcases make_flags_mem f c hc with rfl | rfl | rfl | rfl | rfl <;> decide

theorem make_flags_ne_X (f : Nat) : ∀ c ∈ make_flags f, c ≠ 'X' := by
  intro c hc
  rcases make_flags_mem f c hc with rfl | rfl | rfl | rfl | rfl <;> decide

theorem make_flags_length_le (f : Nat) : (make_flags f).length ≤ 5 := by
  unfold make_flags
  split_ifs <;> simp

/-- The flag-string round trip of sync.c: `parse_flags (make_flags f) = f`
for every 5-bit flag set. -/
theorem parse_flags_make_flags (f : Nat) (h : f < 32) : parse_flags (make_flags f) = f := by
  revert h
  revert f
  decide

/-! ## Header line round trip -/

theorem parseCInt_cons_space (c : Char) (cs : List Char) (h : isSpaceB c = true) :
    parseCInt (c :: cs) = parseCInt cs := by
  simp [parseCInt, List.dropWhile_cons, h]

theorem intToChars_ne_nil (i : Int) : intToChars i ≠ [] := by
  unfold intToChars
  split
  · simp
  · exact natDigits_ne_nil _

theorem parseCInt_full (i : Int) : parseCInt (intToChars i) = some (i, []) := by
  have := parseCInt_intToChars i [] (by intro c hc; cases hc)
  simpa using this

theorem parseIntColonInt_pair (a b : Int) :
    parseIntColonInt (intToChars a ++ (':' :: intToChars b)) = some (a, b) := by
  have h1 := parseCInt_intToChars a (':' :: intToChars b) (by intro c hc; cases hc; decide)
  simp [parseIntColonInt, h1, parseCInt_full b]

theorem parseIntColon3_triple (a b c : Int) :
    parseIntColon3 (intToChars a ++ (':' :: (intToChars b ++ (':' :: intToChars c)))) =
      some (a, b, c) := by
  have h1 := parseCInt_intToChars a (':' :: (intToChars b ++ (':' :: intToChars c))) (by
    intro d hd; cases hd; decide)
  have h2 := parseCInt_intToChars b (':' :: intToChars c) (by intro d hd; cases hd; decide)
  simp [parseIntColon3, h1, h2, parseCInt_full c]

/-- Parsing the header line written by `box_closed_p2` recovers the five
header integers exactly. -/
theorem parseHeaderLine_write (h : StateHeader) :
    parseHeaderLine (writeHeaderLine h) = some h := by
  have hshape : writeHeaderLine h =
      (intToChars h.uidvalM ++ (':' :: intToChars h.maxuidM)) ++
        (' ' :: ((intToChars h.uidvalS ++ (':' :: (intToChars h.smaxxuid ++
          (':' :: intToChars h.maxuidS)))) ++ ['\n'])) := by
    unfold writeHeaderLine
    simp
  have htok1nsp : ∀ c ∈ intToChars h.uidvalM ++ (':' :: intToChars h.maxuidM),
      isSpaceB c = false := by
    intro c hc
    rcases List.mem_append.mp hc with h1 | h1
    · exact intToChars_nonspace _ c h1
    · rcases List.mem_cons.mp h1 with rfl | h2
      · decide
      · exact intToChars_nonspace _ c h2
  have htok2nsp : ∀ c ∈ intToChars h.uidvalS ++ (':' :: (intToChars h.smaxxuid ++
      (':' :: intToChars h.maxuidS))), isSpaceB c = false := by
    intro c hc
    rcases List.mem_append.mp hc with h1 | h1
    · exact intToChars_nonspace _ c h1
    · rcases List.mem_cons.mp h1 with rfl | h2
      · decide
      · rcases List.mem_append.mp h2 with h3 | h3
        · exact intToChars_nonspace _ c h3
        · rcases List.mem_cons.mp h3 with rfl | h4
          · decide
          · exact intToChars_nonspace _ c h4
  have htok1 : cToken (writeHeaderLine h) =
      (intToChars h.uidvalM ++ (':' :: intToChars h.maxuidM),
       ' ' :: ((intToChars h.uidvalS ++ (':' :: (intToChars h.smaxxuid ++
         (':' :: intToChars h.maxuidS)))) ++ ['\n'])) := by
    rw [hshape]
    apply cToken_split
    · simp [intToChars_ne_nil]
    · exact htok1nsp
    · intro c hc
      cases hc
      decide
  have htok2 : cToken (' ' :: (intToChars h.uidvalS ++ (':' :: (intToChars h.smaxxuid ++
      (':' :: (intToChars h.maxuidS ++ ['\n'])))))) =
      (intToChars h.uidvalS ++ (':' :: (intToChars h.smaxxuid ++ (':' :: intToChars h.maxuidS))),
       ['\n']) := by
    have hsp := cToken_split
      (intToChars h.uidvalS ++ (':' :: (intToChars h.smaxxuid ++ (':' :: intToChars h.maxuidS))))
      ['\n'] (by simp [intToChars_ne_nil]) htok2nsp (by intro c hc; cases hc; decide)
    rw [cToken_cons_space _ _ (by decide)]
    simpa using hsp
  have hne1 : (intToChars h.uidvalM ++ (':' :: intToChars h.maxuidM)).isEmpty = false := by
    simp [intToChars_ne_nil]
  have hne2 : (intToChars h.uidvalS ++ (':' :: (intToChars h.smaxxuid ++
      (':' :: intToChars h.maxuidS)))).isEmpty = false := by
    simp [intToChars_ne_nil]
  simp [parseHeaderLine, htok1, htok2, hne1, hne2, parseIntColonInt_pair, parseIntColon3_triple]

/-! ## Entry line round trip -/

theorem cToken_fst_append_nl (xs : List Char) (hx : ∀ c ∈ xs, isSpaceB c = false) :
    (cToken (xs ++ ['\n'])).1 = xs := by
  rcases xs with _ | ⟨x, xs'⟩
  · decide
  · exact congrArg Prod.fst
      (cToken_split (x :: xs') ['\n'] (by simp) hx (by intro c hc; cases hc; decide))

theorem take15_small (xs : List Char) (h : xs.length ≤ 15) : xs.take 15 = xs :=
  List.take_of_length_le h

/-- Parsing an entry line written by `box_closed_p2` recovers the UID pair,
the 5-bit flag set and the `X` (EXPIRED) marker. -/
theorem parseEntryLine_write (r : sync_rec) (hf : r.flags < 32) :
    parseEntryLine (writeEntryLine r) = some (loadedForm r) := by
  have hpfmf := parse_flags_make_flags r.flags hf
  by_cases hexp : (r.status &&& S_EXPIRED != 0) = true
  · have hwe : writeEntryLine r = intToChars r.uidM ++ (' ' :: (intToChars r.uidS ++
        (' ' :: (('X' :: make_flags r.flags) ++ ['\n'])))) := by
      unfold writeEntryLine
      rw [hexp]
      simp
    have h1 := parseCInt_intToChars r.uidM (' ' :: (intToChars r.uidS ++
      (' ' :: (('X' :: make_flags r.flags) ++ ['\n'])))) (by intro c hc; cases hc; decide)
    have h2 : parseCInt (' ' :: (intToChars r.uidS ++
        (' ' :: (('X' :: make_flags r.flags) ++ ['\n'])))) =
        some (r.uidS, ' ' :: (('X' :: make_flags r.flags) ++ ['\n'])) := by
      rw [parseCInt_cons_space _ _ (by decide)]
      exact parseCInt_intToChars r.uidS (' ' :: (('X' :: make_flags r.flags) ++ ['\n']))
        (by intro c hc; cases hc; decide)
    have htok : (cToken (' ' :: (('X' :: make_flags r.flags) ++ ['\n']))).1 =
        'X' :: make_flags r.flags := by
      rw [cToken_cons_space _ _ (by decide)]
      apply cToken_fst_append_nl
      intro c hc
      rcases List.mem_cons.mp hc with rfl | h2
      · decide
      · exact make_flags_nonspace r.flags c h2
    have htake : ('X' :: make_flags r.flags).take 15 = 'X' :: make_flags r.flags := by
      apply take15_small
      have := make_flags_length_le r.flags
      simp only [List.length_cons]
      omega
    rw [hwe]
    unfold parseEntryLine
    rw [h1]
    simp only [h2, htok, htake]
    rw [if_pos (show ('X' :: make_flags r.flags).head? = some 'X' from rfl)]
    unfold loadedForm
    rw [hexp]
    simp [hpfmf]
  · have hexp' : (r.status &&& S_EXPIRED != 0) = false := by
      simpa using hexp
    have hwe : writeEntryLine r = intToChars r.uidM ++ (' ' :: (intToChars r.uidS ++
        (' ' :: (make_flags r.flags ++ ['\n'])))) := by
      unfold writeEntryLine
      rw [hexp']
      simp
    have h1 := parseCInt_intToChars r.uidM (' ' :: (intToChars r.uidS ++
      (' ' :: (make_flags r.flags ++ ['\n'])))) (by intro c hc; cases hc; decide)
    have h2 : parseCInt (' ' :: (intToChars r.uidS ++
        (' ' :: (make_flags r.flags ++ ['\n'])))) =
        some (r.uidS, ' ' :: (make_flags r.flags ++ ['\n'])) := by
      rw [parseCInt_cons_space _ _ (by decide)]
      exact parseCInt_intToChars r.uidS (' ' :: (make_flags r.flags ++ ['\n']))
        (by intro c hc; cases hc; decide)
    have htok : (cToken (' ' :: (make_flags r.flags ++ ['\n']))).1 = make_flags r.flags := by
      rw [cToken_cons_space _ _ (by decide)]
      exact cToken_fst_append_nl _ (make_flags_nonspace r.flags)
    have htake : (make_flags r.flags).take 15 = make_flags r.flags := by
      apply take15_small
      have := make_flags_length_le r.flags
      omega
    have hheadne : (make_flags r.flags).head? ≠ some 'X' := by
      rcases hm : make_flags r.flags with _ | ⟨c, cs⟩
      · simp
      · have : c ≠ 'X' := by
          apply make_flags_ne_X r.flags
          rw [hm]
          exact List.mem_cons_self c cs
        simp [this]
    rw [hwe]
    unfold parseEntryLine
    rw [h1]
    simp only [h2, htok, htake]
    rw [if_neg hheadne]
    unfold loadedForm
    rw [hexp']
    simp [hpfmf]

/-! ## Full state-file round trip (claim C2) -/

theorem writeHeaderLine_shape (h : StateHeader) :
    ∃ core, writeHeaderLine h = core ++ ['\n'] ∧ ∀ c ∈ core, c ≠ '\n' := by
  refine ⟨intToChars h.uidvalM ++ (':' :: (intToChars h.maxuidM ++ (' ' ::
    (intToChars h.uidvalS ++ (':' :: (intToChars h.smaxxuid ++
      (':' :: intToChars h.maxuidS))))))), ?_, ?_⟩
  · unfold writeHeaderLine
    simp
  · intro c hc
    simp only [List.mem_append, List.mem_cons] at hc
    rcases hc with h1 | rfl | h1 | rfl | h1 | rfl | h1 | rfl | h1
    · exact nonspace_ne_nl c (intToChars_nonspace _ c h1)
    · decide
    · exact nonspace_ne_nl c (intToChars_nonspace _ c h1)
    · decide
    · exact nonspace_ne_nl c (intToChars_nonspace _ c h1)
    · decide
    · exact nonspace_ne_nl c (intToChars_nonspace _ c h1)
    · decide
    · exact nonspace_ne_nl c (intToChars_nonspace _ c h1)

theorem writeEntryLine_shape (r : sync_rec) :
    ∃ core, writeEntryLine r = core ++ ['\n'] ∧ ∀ c ∈ core, c ≠ '\n' := by
  refine ⟨intToChars r.uidM ++ (' ' :: (intToChars r.uidS ++ (' ' ::
    ((if r.status &&& S_EXPIRED != 0 then ['X'] else []) ++ make_flags r.flags)))), ?_, ?_⟩
  · unfold writeEntryLine
    simp
  · intro c hc
    simp only [List.mem_append, List.mem_cons] at hc
    rcases hc with h1 | rfl | h1 | rfl | h1 | h1
    · exact nonspace_ne_nl c (intToChars_nonspace _ c h1)
    · decide
    · exact nonspace_ne_nl c (intToChars_nonspace _ c h1)
    · decide
    · split at h1
      · rw [List.mem_singleton] at h1
        subst h1
        decide
      · simp at h1
    · exact nonspace_ne_nl c (make_flags_nonspace r.flags c h1)

theorem lineOk_append_nl (core : List Char) : lineOk (core ++ ['\n']) = true := by
  simp [lineOk, List.getLast?_concat, List.isEmpty_iff]

theorem parseEntryLines_map (recs : List sync_rec) (hf : ∀ r ∈ recs, r.flags < 32) :
    parseEntryLines (recs.map writeEntryLine) = some (recs.map loadedForm) := by
  induction recs with
  | nil => rfl
  | cons r rs ih =>
    obtain ⟨core, heq, _⟩ := writeEntryLine_shape r
    have hok : lineOk (writeEntryLine r) = true := by
      rw [heq]
      exact lineOk_append_nl core
    have hpe := parseEntryLine_write r (hf r (List.mem_cons_self r rs))
    have hih := ih (fun x hx => hf x (List.mem_cons_of_mem r hx))
    simp only [List.map_cons, parseEntryLines, hok, Bool.not_true, Bool.false_eq_true,
      if_false, hpe, hih]

/-- Claim C2: writing the sync state and reading it back is an identity round
trip.  For every channel state header and every list of live records with
5-bit flag sets, the state file written by `box_closed_p2` (header line, then
one entry per live record, flags as a `DFRST` subset, `X` prefix iff
`S_EXPIRED`), parsed by the load procedure of `box_selected`, reconstructs
exactly the same header values and the same records (UID pair, flags,
EXPIRED bit, via the `loadedForm` projection that drops only unpersisted
transient fields) in the same order. -/
theorem claim_C2 (h : StateHeader) (recs : List sync_rec)
    (hlive : ∀ r ∈ recs, r.status &&& S_DEAD = 0)
    (hflags : ∀ r ∈ recs, r.flags < 32) :
    parseStateFile (writeStateFile h recs) = some (h, recs.map loadedForm) := by
  have hfilter : recs.filter (fun r => r.status &&& S_DEAD == 0) = recs := by
    apply List.filter_eq_self.mpr
    intro r hr
    simpa using hlive r hr
  have hsplit : splitLines (writeStateFile h recs) =
      writeHeaderLine h :: recs.map writeEntryLine := by
    unfold writeStateFile
    rw [hfilter]
    rw [show writeHeaderLine h ++ List.flatten (recs.map writeEntryLine) =
        List.flatten (writeHeaderLine h :: recs.map writeEntryLine) by simp]
    apply splitLines_flatten
    intro l hl
    rcases List.mem_cons.mp hl with rfl | hm
    · exact writeHeaderLine_shape h
    · rcases List.mem_map.mp hm with ⟨r, _, rfl⟩
      exact writeEntryLine_shape r
  have hokh : lineOk (writeHeaderLine h) = true := by
    obtain ⟨core, heq, _⟩ := writeHeaderLine_shape h
    rw [heq]
    exact lineOk_append_nl core
  unfold parseStateFile
  rw [hsplit]
  simp only [hokh, Bool.not_true, Bool.false_eq_true, if_false,
    parseHeaderLine_write, parseEntryLines_map recs hflags]

/-- Witness for C2 at a concrete input: three records (one with a skipped
`-1` slave UID, one EXPIRED) survive the write/parse round trip. -/
theorem claim_C2_witness :
    parseStateFile (writeStateFile (StateHeader.mk 11 3 52 2 7)
      [sync_rec.mk 1 1 0 (F_SEEN ||| F_ANSWERED) 0 0 0 0 [],
       sync_rec.mk 2 2 S_EXPIRED 0 0 0 0 0 [],
       sync_rec.mk 3 (-1) 0 0 0 0 0 0 []]) =
    some (StateHeader.mk 11 3 52 2 7,
      ([sync_rec.mk 1 1 0 (F_SEEN ||| F_ANSWERED) 0 0 0 0 [],
        sync_rec.mk 2 2 S_EXPIRED 0 0 0 0 0 [],
        sync_rec.mk 3 (-1) 0 0 0 0 0 0 []]).map loadedForm) :=
  claim_C2 (StateHeader.mk 11 3 52 2 7)
    [sync_rec.mk 1 1 0 (F_SEEN ||| F_ANSWERED) 0 0 0 0 [],
     sync_rec.mk 2 2 S_EXPIRED 0 0 0 0 0 [],
     sync_rec.mk 3 (-1) 0 0 0 0 0 0 []]
    (by decide) (by decide)

/-! ## Journal replay
(`box_selected`, the journal-recovery loop, sync.c:777-909).  The in-memory
replay state mirrors the `svars` fields the journal touches plus the record
list; the C record-lookup loop starts at the last-touched record (`srec`)
and wraps around to the records before it, which `lookupFrom` models with an
index cursor. -/

def firstMatchP {α : Type} (p : α → Bool) : List α → Option (Nat × α)
  | [] => none
  | a :: as =>
    if p a then some (0, a) else (firstMatchP p as).map (fun ix => (ix.1 + 1, ix.2))

theorem firstMatchP_none_iff {α : Type} (p : α → Bool) (l : List α) :
    firstMatchP p l = none ↔ ∀ x ∈ l, p x = false := by
  induction l with
  | nil => simp [firstMatchP]
  | cons a as ih =>
    by_cases hp : p a = true
    · simp [firstMatchP, hp]
    · have hp' : p a = false := by simpa using hp
      simp only [firstMatchP, hp', Bool.false_eq_true, if_false, Option.map_eq_none',
        List.mem_cons]
      constructor
      · intro h x hx
        rcases hx with rfl | hx
        · exact hp'
        · exact (ih.mp h) x hx
      · intro h
        apply ih.mpr
        intro x hx
        exact h x (Or.inr hx)

theorem firstMatchP_some {α : Type} (p : α → Bool) :
    ∀ (l : List α) (i : Nat) (x : α), firstMatchP p l = some (i, x) →
      l.get? i = some x ∧ p x = true := by
  intro l
  induction l with
  | nil => intro i x h; exact absurd h (by simp [firstMatchP])
  | cons a as ih =>
    intro i x h
    by_cases hp : p a = true
    · rw [firstMatchP, if_pos hp] at h
      have h2 := Option.some.inj h
      have h3 : i = 0 := (congrArg Prod.fst h2).symm
      have h4 : x = a := (congrArg Prod.snd h2).symm
      subst h3
      subst h4
      exact ⟨rfl, hp⟩
    · rw [firstMatchP, if_neg hp] at h
      rcases Option.map_eq_some'.mp h with ⟨⟨j, y⟩, hj, hxy⟩
      have h3 : i = j + 1 := (congrArg Prod.fst hxy).symm
      have h4 : x = y := (congrArg Prod.snd hxy).symm
      subst h3
      subst h4
      rcases ih j x hj with ⟨hg, hpy⟩
      exact ⟨by simpa using hg, hpy⟩

def lookupFrom {α : Type} (p : α → Bool) (l : List α) : Option Nat → Option (Nat × α)
  | none => firstMatchP p l
  | some k =>
    match firstMatchP p (l.drop k) with
    | some jx => some (k + jx.1, jx.2)
    | none => firstMatchP p (l.take k)

theorem lookupFrom_some {α : Type} (p : α → Bool) (l : List α) (c : Option Nat)
    (i : Nat) (x : α) (h : lookupFrom p l c = some (i, x)) :
    l.get? i = some x ∧ p x = true := by
  cases c with
  | none => exact firstMatchP_some p l i x h
  | some k =>
    rw [lookupFrom] at h
    rcases hd : firstMatchP p (l.drop k) with _ | ⟨j, y⟩
    · rw [hd] at h
      rcases firstMatchP_some p (l.take k) i x h with ⟨hg, hp⟩
      have hlt : i < (l.take k).length := (List.get?_eq_some.mp hg).1
      have hik : i < k := by
        simp only [List.length_take] at hlt
        omega
      refine ⟨?_, hp⟩
      rw [← List.get?_take hik]
      exact hg
    · rw [hd] at h
      have h2 := Option.some.inj h
      have h3 : i = k + j := (congrArg Prod.fst h2).symm
      have h4 : x = y := (congrArg Prod.snd h2).symm
      subst h3
      subst h4
      rcases firstMatchP_some p (l.drop k) j x hd with ⟨hg, hp⟩
      refine ⟨?_, hp⟩
      rw [← hg, List.get?_drop]

theorem lookupFrom_none_iff {α : Type} (p : α → Bool) (l : List α) (c : Option Nat) :
    lookupFrom p l c = none ↔ ∀ x ∈ l, p x = false := by
  cases c with
  | none => exact firstMatchP_none_iff p l
  | some k =>
    rw [lookupFrom]
    rcases hd : firstMatchP p (l.drop k) with _ | ⟨j, y⟩
    · rw [firstMatchP_none_iff]
      have hdrop := (firstMatchP_none_iff p (l.drop k)).mp hd
      constructor
      · intro htake x hx
        rw [← List.take_append_drop k l, List.mem_append] at hx
        rcases hx with hx | hx
        · exact htake x hx
        · exact hdrop x hx
      · intro hall x hx
        apply hall
        rw [← List.take_append_drop k l, List.mem_append]
        exact Or.inl hx
    · simp only [reduceCtorEq, false_iff]
      intro hall
      rcases firstMatchP_some p (l.drop k) j y hd with ⟨hg, hp⟩
      have hmem : y ∈ l.drop k := List.get?_mem hg
      have hpy := hall y (List.mem_of_mem_drop hmem)
      rw [hpy] at hp
      exact absurd hp (by simp)

theorem lookupFrom_at {α : Type} (p : α → Bool) (l : List α) (i : Nat) (x : α)
    (hg : l.get? i = some x) (hp : p x = true) : lookupFrom p l (some i) = some (i, x) := by
  have hlt : i < l.length := (List.get?_eq_some.mp hg).1
  have hdrop : l.drop i = x :: l.drop (i + 1) := by
    rw [List.drop_eq_get_cons hlt]
    congr 1
    have hgg := List.get?_eq_get hlt
    rw [hg] at hgg
    exact (Option.some.inj hgg).symm
  rw [lookupFrom, hdrop]
  rw [show firstMatchP p (x :: l.drop (i + 1)) = some (0, x) by
    unfold firstMatchP
    rw [if_pos hp]]
  simp

/-- The `svars` fields reconstructed by journal replay, plus the record list
and the last-touched-record cursor of the C lookup loop. -/
structure ReplayState where
  srecs : List sync_rec
  cursor : Option Nat
  maxuidM : Int
  maxuidS : Int
  newuidM : Int
  newuidS : Int
  uidvalM : Int
  uidvalS : Int
  smaxxuid : Int
deriving DecidableEq, Repr

/-- The record-lookup predicate of the replay loop:
`srec->uid[M] == t1 && srec->uid[S] == t2` (DEAD records are not skipped,
exactly as in C). -/
def recMatch (m s : Int) (r : sync_rec) : Bool := r.uidM == m && r.uidS == s

/-- A record created by a `+` journal entry (sync.c:819-831). -/
def newJRec (m s : Int) : sync_rec := sync_rec.mk m s 0 0 0 0 0 0 []

/-- Apply a record-mutating journal entry: look the record up starting from
the cursor, update it in place, and leave the cursor on it. -/
def applyRecEntry (st : ReplayState) (m s : Int) (f : sync_rec → sync_rec) :
    Except Unit ReplayState :=
  match lookupFrom (recMatch m s) st.srecs st.cursor with
  | none => Except.error ()
  | some ix =>
    Except.ok { st with srecs := st.srecs.set ix.1 (f ix.2), cursor := some ix.1 }

/-- One step of the journal-recovery loop of `box_selected`
(sync.c:797-901), for an already-tokenized entry.  A lookup failure is the
`journal entry refers to non-existing sync state entry` error. -/
def applyEntry (st : ReplayState) (e : JEntry) : Except Unit ReplayState :=
  match e with
  | JEntry.maxuidM u => Except.ok { st with maxuidM := u }
  | JEntry.maxuidS u => Except.ok { st with maxuidS := u }
  | JEntry.newuidM u => Except.ok { st with newuidM := u }
  | JEntry.newuidS u => Except.ok { st with newuidS := u }
  | JEntry.uidval um us => Except.ok { st with uidvalM := um, uidvalS := us }
  | JEntry.newRec m s =>
    Except.ok { st with srecs := st.srecs ++ [newJRec m s], cursor := some st.srecs.length }
  | JEntry.kill m s => applyRecEntry st m s (fun r => { r with status := S_DEAD })
  | JEntry.setTuid m s tu => applyRecEntry st m s (fun r => { r with tuid := tu })
  | JEntry.tuidLost m s => applyRecEntry st m s (fun r => { r with flags := 0, tuid := [] })
  | JEntry.setMaster m s nu => applyRecEntry st m s (fun r => { r with uidM := nu, tuid := [] })
  | JEntry.setSlave m s nu => applyRecEntry st m s (fun r => { r with uidS := nu, tuid := [] })
  | JEntry.updFlags m s f => applyRecEntry st m s (fun r => { r with flags := f % 256 })
  | JEntry.expIntent m s b =>
    applyRecEntry st m s (fun r =>
      { r with status := if b then r.status ||| S_EXPIRE else cAndNot r.status S_EXPIRE })
  | JEntry.expRevert m s =>
    applyRecEntry st m s (fun r =>
      { r with status := if r.status &&& S_EXPIRED != 0 then r.status ||| S_EXPIRE
          else cAndNot r.status S_EXPIRE })
  | JEntry.expCommit m s =>
    match lookupFrom (recMatch m s) st.srecs st.cursor with
    | none => Except.error ()
    | some ix =>
      if ix.2.status &&& S_EXPIRE != 0 then
        Except.ok { st with
          srecs := st.srecs.set ix.1 { ix.2 with status := ix.2.status ||| S_EXPIRED }
          cursor := some ix.1
          smaxxuid := if st.smaxxuid < ix.2.uidS then ix.2.uidS else st.smaxxuid }
      else
        Except.ok { st with
          srecs := st.srecs.set ix.1 { ix.2 with status := cAndNot ix.2.status S_EXPIRED }
          cursor := some ix.1 }

/-- The whole journal-recovery loop: apply the entries in order, stopping at
the first malformed reference. -/
def replayJournal (es : List JEntry) (st : ReplayState) : Except Unit ReplayState :=
  match es with
  | [] => Except.ok st
  | e :: rest =>
    match applyEntry st e with
    | Except.ok st' => replayJournal rest st'
    | Except.error err => Except.error err

/-- The fresh replay state before any state file or journal is read:
`uidval` preset to -1 (`sync_boxes`, sync.c:615), everything else zeroed by
`nfcalloc`. -/
def initialReplayState : ReplayState :=
  ReplayState.mk [] none 0 0 0 0 (-1) (-1) 0

/-! ## Claim C3: idempotency of journal replay -/

/-- Claim C3 counterexample: journal replay is not idempotent, in two
ways.  Replaying the one-entry journal `+ 1 2` once over the fresh state
creates one record; replaying it a second time over the result appends a
second copy of the record (sync.c:819-831: `+` creates a record
unconditionally).  And a `< 3 7 5` entry renames the master UID the
replay lookup keys on, so applied a second time to its own output it
finds no record `(3,7)` and the replay bails (sync.c:832-841). -/
theorem claim_C3_counterexample :
    replayJournal [JEntry.newRec 1 2] initialReplayState =
      Except.ok (ReplayState.mk [newJRec 1 2] (some 0) 0 0 0 0 (-1) (-1) 0) ∧
    replayJournal [JEntry.newRec 1 2]
        (ReplayState.mk [newJRec 1 2] (some 0) 0 0 0 0 (-1) (-1) 0) =
      Except.ok (ReplayState.mk [newJRec 1 2, newJRec 1 2] (some 1) 0 0 0 0 (-1) (-1) 0) ∧
    ReplayState.mk [newJRec 1 2] (some 0) 0 0 0 0 (-1) (-1) 0 ≠
      ReplayState.mk [newJRec 1 2, newJRec 1 2] (some 1) 0 0 0 0 (-1) (-1) 0 ∧
    applyEntry (ReplayState.mk [newJRec 3 7] (some 0) 0 0 0 0 (-1) (-1) 0)
        (JEntry.setMaster 3 7 5) =
      Except.ok (ReplayState.mk [sync_rec.mk 5 7 0 0 0 0 0 0 []] (some 0) 0 0 0 0 (-1) (-1) 0) ∧
    applyEntry (ReplayState.mk [sync_rec.mk 5 7 0 0 0 0 0 0 []] (some 0) 0 0 0 0 (-1) (-1) 0)
        (JEntry.setMaster 3 7 5) =
      Except.error () :=
  ⟨rfl, rfl, by decide, rfl, rfl⟩

theorem applyRecEntry_ok (st st' : ReplayState) (m s : Int) (f : sync_rec → sync_rec)
    (h : applyRecEntry st m s f = Except.ok st') :
    ∃ i r, lookupFrom (recMatch m s) st.srecs st.cursor = some (i, r) ∧
      st' = { st with srecs := st.srecs.set i (f r), cursor := some i } := by
  unfold applyRecEntry at h
  rcases hl : lookupFrom (recMatch m s) st.srecs st.cursor with _ | ⟨i, r⟩
  · rw [hl] at h
    simp at h
  · rw [hl] at h
    exact ⟨i, r, rfl, (Except.ok.inj h).symm⟩

theorem applyRecEntry_idem (st st' : ReplayState) (m s : Int) (f : sync_rec → sync_rec)
    (hf1 : ∀ r, recMatch m s r = true → recMatch m s (f r) = true)
    (hf2 : ∀ r, f (f r) = f r)
    (h : applyRecEntry st m s f = Except.ok st') : applyRecEntry st' m s f = Except.ok st' := by
  rcases applyRecEntry_ok st st' m s f h with ⟨i, r, hl, hst⟩
  subst hst
  rcases lookupFrom_some _ _ _ _ _ hl with ⟨hg, hp⟩
  have hlen : i < st.srecs.length := (List.get?_eq_some.mp hg).1
  have hg' : (st.srecs.set i (f r)).get? i = some (f r) := by
    simp [List.getElem?_set_self', hlen]
  have hl' : lookupFrom (recMatch m s) (st.srecs.set i (f r)) (some i) = some (i, f r) :=
    lookupFrom_at _ _ _ _ hg' (hf1 r hp)
  unfold applyRecEntry
  simp only [hl', hf2 r, List.set_set]

/-- The idempotent opcode class: every opcode except `+` (which appends a
record on each application) and `<`/`>` (which change the UID key the lookup
uses, so a second application fails to find the record). -/
def isIdemEntry : JEntry → Bool
  | JEntry.newRec _ _ => false
  | JEntry.setMaster _ _ _ => false
  | JEntry.setSlave _ _ _ => false
  | _ => true

/-- Claim C3, amended: journal replay is not idempotent as a whole, but
every single journal entry with opcode in `- * ~ \ / # & ( ) { } |` is:
applying it twice in direct succession yields the same state as applying it
once.  (`+` appends a record each time, and a `<`/`>` entry renames the UID
key so its second application fails; see the counterexample.) -/
theorem claim_C3_amended (st st' : ReplayState) (e : JEntry) (hi : isIdemEntry e = true)
    (h : applyEntry st e = Except.ok st') : applyEntry st' e = Except.ok st' := by
  cases e with
  | newRec m s => exact absurd hi (by simp [isIdemEntry])
  | setMaster m s nu => exact absurd hi (by simp [isIdemEntry])
  | setSlave m s nu => exact absurd hi (by simp [isIdemEntry])
  | maxuidM u =>
    simp only [applyEntry] at h ⊢
    rw [← Except.ok.inj h]
  | maxuidS u =>
    simp only [applyEntry] at h ⊢
    rw [← Except.ok.inj h]
  | newuidM u =>
    simp only [applyEntry] at h ⊢
    rw [← Except.ok.inj h]
  | newuidS u =>
    simp only [applyEntry] at h ⊢
    rw [← Except.ok.inj h]
  | uidval um us =>
    simp only [applyEntry] at h ⊢
    rw [← Except.ok.inj h]
  | kill m s =>
    simp only [applyEntry] at h ⊢
    exact applyRecEntry_idem st st' m s _ (fun r hr => hr) (fun r => rfl) h
  | setTuid m s tu =>
    simp only [applyEntry] at h ⊢
    exact applyRecEntry_idem st st' m s _ (fun r hr => hr) (fun r => rfl) h
  | tuidLost m s =>
    simp only [applyEntry] at h ⊢
    exact applyRecEntry_idem st st' m s _ (fun r hr => hr) (fun r => rfl) h
  | updFlags m s f0 =>
    simp only [applyEntry] at h ⊢
    exact applyRecEntry_idem st st' m s _ (fun r hr => hr) (fun r => rfl) h
  | expIntent m s b =>
    simp only [applyEntry] at h ⊢
    refine applyRecEntry_idem st st' m s _ (fun r hr => hr) ?_ h
    intro r
    cases b with
    | true =>
      simp only [if_true]
      congr 1
      exact nat_lor_self_right r.status S_EXPIRE
    | false =>
      simp only [Bool.false_eq_true, if_false]
      congr 1
      show (r.status &&& 223) &&& 223 = r.status &&& 223
      exact nat_land_self_right r.status 223
  | expRevert m s =>
    simp only [applyEntry] at h ⊢
    refine applyRecEntry_idem st st' m s _ (fun r hr => hr) ?_ h
    intro r
    by_cases hx : (r.status &&& S_EXPIRED != 0) = true
    · simp only [hx, if_true]
      have hc : (((r.status ||| S_EXPIRE) &&& S_EXPIRED) != 0) = true := by
        show ((r.status ||| 32) &&& 16 != 0) = true
        rw [land16_of_lor32]
        exact hx
      simp only [hc, if_true]
      congr 1
      exact nat_lor_self_right r.status S_EXPIRE
    · have hx' : (r.status &&& S_EXPIRED != 0) = false := by simpa using hx
      simp only [hx', Bool.false_eq_true, if_false]
      have hc : (((cAndNot r.status S_EXPIRE) &&& S_EXPIRED) != 0) = false := by
        show ((cAndNot r.status 32) &&& 16 != 0) = false
        rw [land16_of_clear32]
        exact hx'
      simp only [hc, Bool.false_eq_true, if_false]
      congr 1
      show (r.status &&& 223) &&& 223 = r.status &&& 223
      exact nat_land_self_right r.status 223
  | expCommit m s =>
    simp only [applyEntry] at h ⊢
    rcases hl : lookupFrom (recMatch m s) st.srecs st.cursor with _ | ⟨i, r⟩
    · rw [hl] at h
      simp at h
    · rw [hl] at h
      rcases lookupFrom_some _ _ _ _ _ hl with ⟨hg, hp⟩
      have hlen : i < st.srecs.length := (List.get?_eq_some.mp hg).1
      by_cases hexp : (r.status &&& S_EXPIRE != 0) = true
      · simp only [hexp, if_true] at h
        have hst := (Except.ok.inj h).symm
        subst hst
        have hg' : (st.srecs.set i { r with status := r.status ||| S_EXPIRED }).get? i =
            some { r with status := r.status ||| S_EXPIRED } := by
          simp [List.getElem?_set_self', hlen]
        have hl' : lookupFrom (recMatch m s)
            (st.srecs.set i { r with status := r.status ||| S_EXPIRED }) (some i) =
            some (i, { r with status := r.status ||| S_EXPIRED }) :=
          lookupFrom_at _ _ _ _ hg' hp
        simp only [hl']
        have hc : ((({ r with status := r.status ||| S_EXPIRED } : sync_rec).status &&&
            S_EXPIRE) != 0) = true := by
          show ((r.status ||| 16) &&& 32 != 0) = true
          rw [land32_of_lor16]
          exact hexp
        simp only [hc, if_true, List.set_set]
        have hsm : ¬((if st.smaxxuid < r.uidS then r.uidS else st.smaxxuid) < r.uidS) := by
          split <;> omega
        have hglue : ((r.status ||| S_EXPIRED) ||| S_EXPIRED) = r.status ||| S_EXPIRED :=
          nat_lor_self_right r.status S_EXPIRED
        simp only [hglue, if_neg hsm]
      · have hexp' : (r.status &&& S_EXPIRE != 0) = false := by simpa using hexp
        simp only [hexp', Bool.false_eq_true, if_false] at h
        have hst := (Except.ok.inj h).symm
        subst hst
        have hg' : (st.srecs.set i { r with status := cAndNot r.status S_EXPIRED }).get? i =
            some { r with status := cAndNot r.status S_EXPIRED } := by
          simp [List.getElem?_set_self', hlen]
        have hl' : lookupFrom (recMatch m s)
            (st.srecs.set i { r with status := cAndNot r.status S_EXPIRED }) (some i) =
            some (i, { r with status := cAndNot r.status S_EXPIRED }) :=
          lookupFrom_at _ _ _ _ hg' hp
        simp only [hl']
        have hc : ((({ r with status := cAndNot r.status S_EXPIRED } : sync_rec).status &&&
            S_EXPIRE) != 0) = false := by
          show ((cAndNot r.status 16) &&& 32 != 0) = false
          rw [land32_of_clear16]
          exact hexp'
        simp only [hc, Bool.false_eq_true, if_false, List.set_set]
        have hglue : cAndNot (cAndNot r.status S_EXPIRED) S_EXPIRED =
            cAndNot r.status S_EXPIRED := by
          show (r.status &&& 239) &&& 239 = r.status &&& 239
          exact nat_land_self_right r.status 239
        simp only [hglue]

/-- Witness for C3 amended at a concrete input: a `*` (flags) entry applied
twice in a row. -/
theorem claim_C3_amended_witness :
    applyEntry (ReplayState.mk [newJRec 4 9] (some 0) 0 0 0 0 (-1) (-1) 0)
      (JEntry.updFlags 4 9 5) =
      Except.ok (ReplayState.mk [sync_rec.mk 4 9 0 5 0 0 0 0 []] (some 0) 0 0 0 0 (-1) (-1) 0) ∧
    applyEntry (ReplayState.mk [sync_rec.mk 4 9 0 5 0 0 0 0 []] (some 0) 0 0 0 0 (-1) (-1) 0)
      (JEntry.updFlags 4 9 5) =
      Except.ok (ReplayState.mk [sync_rec.mk 4 9 0 5 0 0 0 0 []] (some 0) 0 0 0 0 (-1) (-1) 0) :=
  ⟨rfl,
   claim_C3_amended (ReplayState.mk [newJRec 4 9] (some 0) 0 0 0 0 (-1) (-1) 0)
     (ReplayState.mk [sync_rec.mk 4 9 0 5 0 0 0 0 []] (some 0) 0 0 0 0 (-1) (-1) 0)
     (JEntry.updFlags 4 9 5) (by decide) rfl⟩

/-! ## Claim C6: smaxxuid monotonicity
(`flags_set_sync_p2`, sync.c:1510-1535, and the `/` replay case,
sync.c:886-895). -/

/-- `flags_set_sync_p2` of sync.c: commit the new flag set (journalling `*`
when it changed; the flags store itself is modelled unconditionally since
storing an unchanged value is a no-op) and, on the slave side, commit or
cancel the expiration
transition (journalling `/` or `\`), advancing `smaxxuid` when a record with
a bigger slave UID becomes EXPIRED.  Returns the new `smaxxuid`, the updated
record and the journal entries written. -/
def flags_set_sync_p2 (smaxxuid : Int) (srec : sync_rec) (t : Nat) :
    Int × sync_rec × List JEntry :=
  let nflags := cAndNot (srec.flags ||| (if t = 0 then srec.aflagsM else srec.aflagsS))
    (if t = 0 then srec.dflagsM else srec.dflagsS)
  let srec1 : sync_rec := { srec with flags := nflags }
  let j1 : List JEntry :=
    if srec.flags ≠ nflags then [JEntry.updFlags srec.uidM srec.uidS nflags] else []
  if t ≠ 0 then
    let nex := (srec1.status / S_NEXPIRE) &&& 1
    if nex ≠ (srec1.status / S_EXPIRED) &&& 1 then
      (if nex ≠ 0 ∧ smaxxuid < srec1.uidS then srec1.uidS else smaxxuid,
       { srec1 with status := cAndNot srec1.status S_EXPIRED ||| (nex * S_EXPIRED) },
       j1 ++ [JEntry.expCommit srec1.uidM srec1.uidS])
    else if nex ≠ (srec1.status / S_EXPIRE) &&& 1 then
      (smaxxuid,
       { srec1 with status := cAndNot srec1.status S_EXPIRE ||| (nex * S_EXPIRE) },
       j1 ++ [JEntry.expRevert srec1.uidM srec1.uidS])
    else (smaxxuid, srec1, j1)
  else (smaxxuid, srec1, j1)

theorem applyRecEntry_smaxxuid (st st' : ReplayState) (m s : Int) (f : sync_rec → sync_rec)
    (h : applyRecEntry st m s f = Except.ok st') : st'.smaxxuid = st.smaxxuid := by
  rcases applyRecEntry_ok st st' m s f h with ⟨i, r, _, hst⟩
  rw [hst]

theorem applyEntry_smaxxuid_le (e : JEntry) (st st' : ReplayState)
    (h : applyEntry st e = Except.ok st') : st.smaxxuid ≤ st'.smaxxuid := by
  cases e with
  | maxuidM u => rw [← Except.ok.inj h]
  | maxuidS u => rw [← Except.ok.inj h]
  | newuidM u => rw [← Except.ok.inj h]
  | newuidS u => rw [← Except.ok.inj h]
  | uidval um us => rw [← Except.ok.inj h]
  | newRec m s => rw [← Except.ok.inj h]
  | kill m s =>
    simp only [applyEntry] at h
    rw [applyRecEntry_smaxxuid st st' m s _ h]
  | setTuid m s tu =>
    simp only [applyEntry] at h
    rw [applyRecEntry_smaxxuid st st' m s _ h]
  | tuidLost m s =>
    simp only [applyEntry] at h
    rw [applyRecEntry_smaxxuid st st' m s _ h]
  | setMaster m s nu =>
    simp only [applyEntry] at h
    rw [applyRecEntry_smaxxuid st st' m s _ h]
  | setSlave m s nu =>
    simp only [applyEntry] at h
    rw [applyRecEntry_smaxxuid st st' m s _ h]
  | updFlags m s f0 =>
    simp only [applyEntry] at h
    rw [applyRecEntry_smaxxuid st st' m s _ h]
  | expIntent m s b =>
    simp only [applyEntry] at h
    rw [applyRecEntry_smaxxuid st st' m s _ h]
  | expRevert m s =>
    simp only [applyEntry] at h
    rw [applyRecEntry_smaxxuid st st' m s _ h]
  | expCommit m s =>
    simp only [applyEntry] at h
    rcases hl : lookupFrom (recMatch m s) st.srecs st.cursor with _ | ⟨i, r⟩
    · rw [hl] at h
      simp at h
    · rw [hl] at h
      by_cases hexp : (r.status &&& S_EXPIRE != 0) = true
      · simp only [hexp, if_true] at h
        rw [← Except.ok.inj h]
        show st.smaxxuid ≤ if st.smaxxuid < r.uidS then r.uidS else st.smaxxuid
        split <;> omega
      · have hexp' : (r.status &&& S_EXPIRE != 0) = false := by simpa using hexp
        simp only [hexp', Bool.false_eq_true, if_false] at h
        rw [← Except.ok.inj h]

theorem replayJournal_smaxxuid_le (es : List JEntry) :
    ∀ (st st' : ReplayState), replayJournal es st = Except.ok st' →
      st.smaxxuid ≤ st'.smaxxuid := by
  induction es with
  | nil =>
    intro st st' h
    rw [← Except.ok.inj h]
  | cons e rest ih =>
    intro st st' h
    unfold replayJournal at h
    rcases ha : applyEntry st e with err | st1
    · rw [ha] at h
      simp at h
    · rw [ha] at h
      exact le_trans (applyEntry_smaxxuid_le e st st1 ha) (ih st1 st' h)

/-- Claim C6: `smaxxuid` is monotonically non-decreasing.  The EXPIRED
commit in `flags_set_sync_p2` either leaves it unchanged or replaces it with
the record's strictly larger slave UID; a `/` journal entry does the same
during replay; hence no replayed journal ever decreases it.  Since every
run starts from the persisted header value and only these two code paths
update it, the persisted value never decreases across runs. -/
theorem claim_C6 :
    (∀ (x : Int) (r : sync_rec) (t : Nat),
      (flags_set_sync_p2 x r t).1 = x ∨
        (x < r.uidS ∧ (flags_set_sync_p2 x r t).1 = r.uidS)) ∧
    (∀ (e : JEntry) (st st' : ReplayState), applyEntry st e = Except.ok st' →
      st.smaxxuid ≤ st'.smaxxuid) ∧
    (∀ (es : List JEntry) (st st' : ReplayState), replayJournal es st = Except.ok st' →
      st.smaxxuid ≤ st'.smaxxuid) := by
  refine ⟨?_, applyEntry_smaxxuid_le, fun es => replayJournal_smaxxuid_le es⟩
  intro x r t
  unfold flags_set_sync_p2
  dsimp only
  by_cases ht : t ≠ 0
  · rw [if_pos ht]
    by_cases hc1 : (r.status / S_NEXPIRE) &&& 1 ≠ (r.status / S_EXPIRED) &&& 1
    · rw [if_pos hc1]
      by_cases hg : (r.status / S_NEXPIRE) &&& 1 ≠ 0 ∧ x < r.uidS
      · rw [if_pos hg]
        exact Or.inr ⟨hg.2, rfl⟩
      · rw [if_neg hg]
        exact Or.inl rfl
    · rw [if_neg hc1]
      left
      split <;> rfl
  · rw [if_neg ht]
    exact Or.inl rfl

/-- Witness for C6 at concrete inputs: an expiring slave record (status
`S_NEXPIRE`, slave UID 7) pushes `smaxxuid` from 0 to 7, and a one-entry
journal replay does not decrease `smaxxuid`. -/
theorem claim_C6_witness :
    ((flags_set_sync_p2 0 (sync_rec.mk 3 7 S_NEXPIRE 0 0 0 0 0 []) 1).1 = 0 ∨
      (0 < (sync_rec.mk 3 7 S_NEXPIRE 0 0 0 0 0 []).uidS ∧
       (flags_set_sync_p2 0 (sync_rec.mk 3 7 S_NEXPIRE 0 0 0 0 0 []) 1).1 =
         (sync_rec.mk 3 7 S_NEXPIRE 0 0 0 0 0 []).uidS)) ∧
    initialReplayState.smaxxuid ≤
      (ReplayState.mk [] none 5 0 0 0 (-1) (-1) 0).smaxxuid :=
  ⟨claim_C6.1 0 (sync_rec.mk 3 7 S_NEXPIRE 0 0 0 0 0 []) 1,
   claim_C6.2.2 [JEntry.maxuidM 5] initialReplayState
     (ReplayState.mk [] none 5 0 0 0 (-1) (-1) 0) rfl⟩

/-! ## Claim C8: the journal is replayed only when both the journal and the
`state.new` file exist (`box_selected`, sync.c:776-791). -/

/-- The `svars` state right after the state file is parsed: records from the
file, `uidval`/`maxuid`/`smaxxuid` from the header, `newuid` zero, no
lookup cursor yet. -/
def mkLoadedState (h : StateHeader) (recs : List sync_rec) : ReplayState :=
  ReplayState.mk recs none h.maxuidM h.maxuidS 0 0 h.uidvalM h.uidvalS h.smaxxuid

/-- The load procedure of `box_selected` (sync.c:722-909): parse the state
file if it exists (a missing file leaves the calloc/`sync_boxes` defaults),
then replay the journal — but only when the journal exists AND `state.new`
exists (`fopen(jname)` succeeding and `!stat(nname)`, sync.c:777-778); a
journal without `state.new` means the previous run committed, so its
contents are ignored. -/
def load_sync_state (stateFile : Option (List Char)) (journal : Option (List JEntry))
    (newStateExists : Bool) : Except Unit ReplayState :=
  match (match stateFile with
         | none => some (StateHeader.mk (-1) 0 (-1) 0 0, ([] : List sync_rec))
         | some content => parseStateFile content) with
  | none => Except.error ()
  | some hr =>
    match journal with
    | some es =>
      if newStateExists then replayJournal es (mkLoadedState hr.1 hr.2)
      else Except.ok (mkLoadedState hr.1 hr.2)
    | none => Except.ok (mkLoadedState hr.1 hr.2)

/-- Claim C8: if the journal exists but `state.new` does not, the journal's
contents are ignored: the load result is exactly the result of loading with
no journal at all, i.e. the parsed state file. -/
theorem claim_C8 (stateFile : Option (List Char)) (es : List JEntry) :
    load_sync_state stateFile (some es) false = load_sync_state stateFile none false := by
  unfold load_sync_state
  cases hm : (match stateFile with
      | none => some (StateHeader.mk (-1) 0 (-1) 0 0, ([] : List sync_rec))
      | some content => parseStateFile content) with
  | none => rfl
  | some hr => rfl

/-! ## Claim C7: `match_tuids` (sync.c:218-264)
The TUID matcher walks the live records with a pending `-2` UID and a TUID,
searching the side's message list from the last-matched cursor (`ntmsg`)
forward and then from the head up to the cursor — together covering every
message.  The message back-pointer assignment (`tmsg->srec = srec`) has no
bearing on the record list, the journal or the lost counter and is not
modelled. -/

/-- The message-match test of the `match_tuids` scan loops: live message,
nonempty TUID, exact `TUIDL`-byte match. -/
def mtPred (stuid : List Char) (m : message) : Bool :=
  m.status &&& M_DEAD == 0 && !m.tuid.isEmpty && m.tuid == stuid

/-- The record walk of `match_tuids`, with the `ntmsg` cursor threaded
through; returns the updated records (in order), the journal entries
written, and `num_lost`. -/
def matchTuidsGo (t : Nat) (msgs : List message) :
    List sync_rec → Option Nat → List sync_rec × List JEntry × Nat
  | [], _ => ([], [], 0)
  | r :: rs, cur =>
    if r.status &&& S_DEAD != 0 then
      match matchTuidsGo t msgs rs cur with
      | (os, js, n) => (r :: os, js, n)
    else if r.uid t == -2 && !r.tuid.isEmpty then
      match lookupFrom (mtPred r.tuid) msgs cur with
      | none =>
        match matchTuidsGo t msgs rs cur with
        | (os, js, n) =>
          ({ r with flags := 0, tuid := [] } :: os,
           JEntry.tuidLost r.uidM r.uidS :: js, n + 1)
      | some jm =>
        match matchTuidsGo t msgs rs (some (jm.1 + 1)) with
        | (os, js, n) =>
          ({ r.setUid t jm.2.uid with tuid := [] } :: os,
           JEntry.setSide t r.uidM r.uidS jm.2.uid :: js, n)
    else
      match matchTuidsGo t msgs rs cur with
      | (os, js, n) => (r :: os, js, n)

/-- `match_tuids` of sync.c: the walk starts with a null `ntmsg`. -/
def match_tuids (t : Nat) (recs : List sync_rec) (msgs : List message) :
    List sync_rec × List JEntry × Nat :=
  matchTuidsGo t msgs recs none

/-- A record that `match_tuids` on side `t` declares lost: live, pending
(`uid[t] = -2`), TUID set, and no live message on the side carries that
TUID. -/
def mtLost (t : Nat) (msgs : List message) (r : sync_rec) : Bool :=
  r.status &&& S_DEAD == 0 && r.uid t == -2 && !r.tuid.isEmpty &&
    msgs.all (fun m => !(mtPred r.tuid m))

theorem matchTuidsGo_count (t : Nat) (msgs : List message) :
    ∀ (recs : List sync_rec) (cur : Option Nat),
      (matchTuidsGo t msgs recs cur).2.2 = recs.countP (mtLost t msgs) := by
  intro recs
  induction recs with
  | nil => intro cur; rfl
  | cons r rs ih =>
    intro cur
    rw [List.countP_cons]
    unfold matchTuidsGo
    by_cases hdead : (r.status &&& S_DEAD != 0) = true
    · rw [if_pos hdead]
      have hlost : mtLost t msgs r = false := by
        unfold mtLost
        rw [Bool.eq_false_iff]
        intro hc
        simp only [Bool.and_eq_true] at hc
        have hz : (r.status &&& S_DEAD == 0) = false := by
          simpa [bne] using hdead
        rw [hz] at hc
        exact absurd hc.1.1.1 (by simp)
      rcases hgo : matchTuidsGo t msgs rs cur with ⟨os, js, n⟩
      have hn : n = rs.countP (mtLost t msgs) := by
        have := ih cur
        rw [hgo] at this
        exact this
      simp [hlost, hn]
    · have hdead2 : (r.status &&& S_DEAD != 0) = false := by simpa using hdead
      rw [if_neg (by simp [hdead2])]
      by_cases hcond : (r.uid t == -2 && !r.tuid.isEmpty) = true
      · rw [if_pos hcond]
        rcases hl : lookupFrom (mtPred r.tuid) msgs cur with _ | ⟨j, mm⟩
        · have hnomatch := (lookupFrom_none_iff (mtPred r.tuid) msgs cur).mp hl
          have hlost : mtLost t msgs r = true := by
            unfold mtLost
            have h0 : (r.status &&& S_DEAD == 0) = true := by
              simpa [bne, Bool.not_eq_true'] using hdead2
            have hall : msgs.all (fun m => !(mtPred r.tuid m)) = true := by
              rw [List.all_eq_true]
              intro m hm
              simp [hnomatch m hm]
            simp only [Bool.and_eq_true] at hcond
            rw [h0, hcond.1, hcond.2, hall]
            rfl
          rcases hgo : matchTuidsGo t msgs rs cur with ⟨os, js, n⟩
          have hn : n = rs.countP (mtLost t msgs) := by
            have := ih cur
            rw [hgo] at this
            exact this
          simp [hlost, hn]
        · have hfound : mtLost t msgs r = false := by
            rcases lookupFrom_some _ _ _ _ _ hl with ⟨hg, hp⟩
            have hmem : mm ∈ msgs := List.get?_mem hg
            unfold mtLost
            rw [Bool.eq_false_iff]
            intro hc
            simp only [Bool.and_eq_true] at hc
            have := (List.all_eq_true.mp hc.2) mm hmem
            rw [hp] at this
            exact absurd this (by simp)
          rcases hgo : matchTuidsGo t msgs rs (some (j + 1)) with ⟨os, js, n⟩
          have hn : n = rs.countP (mtLost t msgs) := by
            have := ih (some (j + 1))
            rw [hgo] at this
            exact this
          simp [hfound, hgo, hn]
      · rw [if_neg (by simpa using hcond)]
        have hlost : mtLost t msgs r = false := by
          unfold mtLost
          rw [Bool.eq_false_iff]
          intro hc
          simp only [Bool.and_eq_true] at hc
          exact hcond (by simp [hc.1.1.2, hc.1.2])
        rcases hgo : matchTuidsGo t msgs rs cur with ⟨os, js, n⟩
        have hn : n = rs.countP (mtLost t msgs) := by
          have := ih cur
          rw [hgo] at this
          exact this
        simp [hlost, hn]
theorem matchTuidsGo_lost_spec (t : Nat) (msgs : List message) :
    ∀ (recs : List sync_rec) (cur : Option Nat) (i : Nat) (r : sync_rec),
      recs.get? i = some r → mtLost t msgs r = true →
      (matchTuidsGo t msgs recs cur).1.get? i = some { r with flags := 0, tuid := [] } ∧
      JEntry.tuidLost r.uidM r.uidS ∈ (matchTuidsGo t msgs recs cur).2.1 := by
  intro recs
  induction recs with
  | nil => intro cur i r hr; exact absurd hr (by simp)
  | cons r0 rs ih =>
    intro cur i r hr hlost
    cases i with
    | zero =>
      have hr0 : r0 = r := Option.some.inj hr
      subst hr0
      have hl0 := hlost
      unfold mtLost at hl0
      simp only [Bool.and_eq_true] at hl0
      have hdead' : (r0.status &&& S_DEAD != 0) = false := by
        simp only [bne]
        simpa using hl0.1.1.1
      have hcond : (r0.uid t == -2 && !r0.tuid.isEmpty) = true := by
        simp [hl0.1.1.2, hl0.1.2]
      have hnone : lookupFrom (mtPred r0.tuid) msgs cur = none := by
        rw [lookupFrom_none_iff]
        intro m hm
        have := (List.all_eq_true.mp hl0.2) m hm
        simpa using this
      unfold matchTuidsGo
      rw [if_neg (by simp [hdead']), if_pos hcond, hnone]
      exact ⟨rfl, List.mem_cons_self _ _⟩
    | succ j =>
      have hrj : rs.get? j = some r := by simpa using hr
      unfold matchTuidsGo
      by_cases hdead : (r0.status &&& S_DEAD != 0) = true
      · rw [if_pos hdead]
        rcases ih cur j r hrj hlost with ⟨h1, h2⟩
        exact ⟨by simpa using h1, by simpa using h2⟩
      · rw [if_neg (by simpa using hdead)]
        by_cases hcond : (r0.uid t == -2 && !r0.tuid.isEmpty) = true
        · rw [if_pos hcond]
          rcases hl : lookupFrom (mtPred r0.tuid) msgs cur with _ | ⟨jj, mm⟩
          · rcases ih cur j r hrj hlost with ⟨h1, h2⟩
            exact ⟨by simpa using h1, by simp [h2]⟩
          · rcases ih (some (jj + 1)) j r hrj hlost with ⟨h1, h2⟩
            exact ⟨by simpa using h1, by simp [h2]⟩
        · rw [if_neg (by simpa using hcond)]
          rcases ih cur j r hrj hlost with ⟨h1, h2⟩
          exact ⟨by simpa using h1, by simpa using h2⟩

/-- Claim C7: in `match_tuids` on side `t`, every live record with
`uid[t] = -2` and a nonempty TUID that matches no live message on that side
is handled as lost: a `&` journal entry with the record's UID pair is
written, the record's flags are zeroed and its TUID cleared, the record
stays live with `uid[t]` unchanged, and it is counted (once per such
record) toward the single "lost track of N messages" warning
(sync.c:247-252, 262-263). -/
theorem claim_C7 (t : Nat) (recs : List sync_rec) (msgs : List message) (i : Nat)
    (r : sync_rec) (hr : recs.get? i = some r) (hlost : mtLost t msgs r = true) :
    (match_tuids t recs msgs).1.get? i = some { r with flags := 0, tuid := [] } ∧
    JEntry.tuidLost r.uidM r.uidS ∈ (match_tuids t recs msgs).2.1 ∧
    ({ r with flags := 0, tuid := [] } : sync_rec).status &&& S_DEAD = 0 ∧
    ({ r with flags := 0, tuid := [] } : sync_rec).uid t = r.uid t ∧
    (match_tuids t recs msgs).2.2 = recs.countP (mtLost t msgs) := by
  rcases matchTuidsGo_lost_spec t msgs recs none i r hr hlost with ⟨h1, h2⟩
  refine ⟨h1, h2, ?_, ?_, matchTuidsGo_count t msgs recs none⟩
  · unfold mtLost at hlost
    simp only [Bool.and_eq_true] at hlost
    simpa using hlost.1.1.1
  · unfold sync_rec.uid
    split <;> rfl

/-- Witness for C7 at a concrete input: one pending record whose TUID
matches no message. -/
theorem claim_C7_witness :
    (match_tuids 1 [sync_rec.mk 4 (-2) 0 9 0 0 0 0 ['A', 'B']]
        [message.mk 10 0 5 0 ['C', 'D']]).1.get? 0 =
      some (sync_rec.mk 4 (-2) 0 0 0 0 0 0 []) ∧
    JEntry.tuidLost 4 (-2) ∈
      (match_tuids 1 [sync_rec.mk 4 (-2) 0 9 0 0 0 0 ['A', 'B']]
        [message.mk 10 0 5 0 ['C', 'D']]).2.1 := by
  have h := claim_C7 1 [sync_rec.mk 4 (-2) 0 9 0 0 0 0 ['A', 'B']]
    [message.mk 10 0 5 0 ['C', 'D']] 0 (sync_rec.mk 4 (-2) 0 9 0 0 0 0 ['A', 'B'])
    (by decide) (by decide)
  exact ⟨h.1, h.2.1⟩

/-! ## Claim C1: `box_closed_p2` — purge and state-file commit
(sync.c:1652-1722).  The purge pass runs only when either side recorded
`ST_DID_EXPUNGE`; afterwards the new state file is written with one line
per live record.  File closing/renaming and `sync_bail` are I/O only. -/

/-- `INT_MAX` of the C int, the initial `minwuid`. -/
def INT_MAX : Int := 2147483647

/-- The purge's "gone from the slave" test
`uid[S] <= 0 || ((status & S_DEL(S)) && (state[S] & ST_DID_EXPUNGE))`. -/
def goneS (didExpS : Bool) (r : sync_rec) : Bool :=
  decide (r.uidS ≤ 0) || (r.status &&& S_DEL 1 != 0 && didExpS)

/-- The purge's "gone from the master" test
`uid[M] <= 0 || ((status & S_DEL(M)) && (state[M] & ST_DID_EXPUNGE))`. -/
def goneM (didExpM : Bool) (r : sync_rec) : Bool :=
  decide (r.uidM ≤ 0) || (r.status &&& S_DEL 0 != 0 && didExpM)

/-- One record of the `minwuid` scan (sync.c:1666-1676): a live record
that is neither gone nor expired-away, with slave UID above `smaxxuid`,
lowers `minwuid` to its master UID. -/
def minwuidStep (didExpM didExpS : Bool) (smaxxuid : Int) (mw : Int) (r : sync_rec) : Int :=
  if r.status &&& S_DEAD != 0 then mw
  else if !(goneS didExpS r && (goneM didExpM r || r.status &&& S_EXPIRED != 0)) &&
      decide (smaxxuid < r.uidS) && decide (mw > r.uidM) then r.uidM
  else mw

/-- `minwuid` as computed before the purge loop: scanned only when
`smaxxuid` is nonzero, else left at `INT_MAX` (sync.c:1664-1678). -/
def computeMinwuid (didExpM didExpS : Bool) (smaxxuid : Int) (srecs : List sync_rec) : Int :=
  if smaxxuid != 0 then srecs.foldl (minwuidStep didExpM didExpS smaxxuid) INT_MAX
  else INT_MAX

/-- The kill/orphan transform of one record in the purge loop
(sync.c:1680-1699): the updated record and the journal entries written. -/
def purgeRec (didExpM didExpS : Bool) (maxuidM minwuid : Int) (r : sync_rec) :
    sync_rec × List JEntry :=
  if r.status &&& S_DEAD != 0 then (r, [])
  else if goneS didExpS r then
    if goneM didExpM r ||
        (r.status &&& S_EXPIRED != 0 && decide (maxuidM ≥ r.uidM) &&
          decide (minwuid > r.uidM)) then
      ({ r with status := S_DEAD }, [JEntry.kill r.uidM r.uidS])
    else if decide (r.uidS > 0) then
      ({ r with uidS := 0 }, [JEntry.setSlave r.uidM r.uidS 0])
    else (r, [])
  else if decide (r.uidM > 0) && (r.status &&& S_DEL 0 != 0 && didExpM) then
    ({ r with uidM := 0 }, [JEntry.setMaster r.uidM r.uidS 0])
  else (r, [])

/-- `box_closed_p2` once both sides are closed: the purge pass (run iff
either side did expunge), then the state-file write.  Returns the final
record list, the journal entries appended, and the committed state-file
characters. -/
def box_closed_p2 (didExpM didExpS : Bool) (hdr : StateHeader) (srecs : List sync_rec) :
    List sync_rec × List JEntry × List Char :=
  let purged :=
    if didExpM || didExpS then
      let minwuid := computeMinwuid didExpM didExpS hdr.smaxxuid srecs
      let prs := srecs.map (purgeRec didExpM didExpS hdr.maxuidM minwuid)
      (prs.map Prod.fst, (prs.map Prod.snd).flatten)
    else (srecs, [])
  (purged.1, purged.2, writeStateFile hdr purged.1)

/-- Counterexample to claim C1: even with a full expunge on both sides,
the purge keeps a live record whose slave UID is the placeholder `-1`
(a message skipped as too big), and that record is written to the new
state file.  So not every committed live record has two non-negative
UIDs. -/
theorem claim_C1_counterexample :
    (box_closed_p2 true true (StateHeader.mk 1 5 1 0 5)
        [sync_rec.mk 5 (-1) 0 0 0 0 0 0 []]).1 =
      [sync_rec.mk 5 (-1) 0 0 0 0 0 0 []] ∧
    (sync_rec.mk 5 (-1) 0 0 0 0 0 0 []).status &&& S_DEAD = 0 ∧
    (sync_rec.mk 5 (-1) 0 0 0 0 0 0 []).uidS = -1 ∧
    (box_closed_p2 true true (StateHeader.mk 1 5 1 0 5)
        [sync_rec.mk 5 (-1) 0 0 0 0 0 0 []]).2.2 =
      writeHeaderLine (StateHeader.mk 1 5 1 0 5) ++
        writeEntryLine (sync_rec.mk 5 (-1) 0 0 0 0 0 0 []) := by
  refine ⟨by decide, by decide, by decide, by decide⟩

theorem purgeRec_live_pos (dM dS : Bool) (mx mw : Int) (r : sync_rec)
    (hlive : (purgeRec dM dS mx mw r).1.status &&& S_DEAD = 0) :
    0 < (purgeRec dM dS mx mw r).1.uidM ∨ 0 < (purgeRec dM dS mx mw r).1.uidS := by
  unfold purgeRec at hlive ⊢
  split_ifs at hlive ⊢ with h1 h2 h3 h4 h5
  · simp only [bne_iff_ne, ne_eq] at h1
    exact absurd hlive h1
  · dsimp only at hlive
    exact absurd hlive (by decide)
  · dsimp only
    left
    simp only [Bool.or_eq_true, not_or, goneM, Bool.and_eq_true,
      decide_eq_true_eq] at h3
    have := h3.1
    simp only [Bool.or_eq_true, decide_eq_true_eq] at this
    omega
  · dsimp only
    left
    simp only [Bool.or_eq_true, not_or, goneM, Bool.and_eq_true,
      decide_eq_true_eq] at h3
    have := h3.1
    simp only [Bool.or_eq_true, decide_eq_true_eq] at this
    omega
  · dsimp only
    right
    simp only [goneS, Bool.or_eq_true, decide_eq_true_eq] at h2
    push_neg at h2
    omega
  · dsimp only
    right
    simp only [goneS, Bool.or_eq_true, decide_eq_true_eq] at h2
    push_neg at h2
    omega

/-- Claim C1 amended: what the purge actually guarantees.  When an expunge
happened on either side, every record that survives the purge pass of
`box_closed_p2` alive has at least one strictly positive UID — but the
other UID may still be `0`, `-1` or `-2`, so the claim's "both UIDs
non-negative" does not hold (see the counterexample). -/
theorem claim_C1_amended (didExpM didExpS : Bool) (hdr : StateHeader)
    (srecs : List sync_rec) (hexp : (didExpM || didExpS) = true) (r : sync_rec)
    (hr : r ∈ (box_closed_p2 didExpM didExpS hdr srecs).1)
    (hlive : r.status &&& S_DEAD = 0) :
    0 < r.uidM ∨ 0 < r.uidS := by
  unfold box_closed_p2 at hr
  rw [if_pos hexp] at hr
  simp only [List.map_map, List.mem_map, Function.comp] at hr
  obtain ⟨r0, hr0, hf⟩ := hr
  subst hf
  exact purgeRec_live_pos _ _ _ _ _ hlive

/-- Witness for the amended C1 at a concrete input: a record
deleted-and-expunged on the master is orphaned to `uid[M] = 0` and keeps
its positive slave UID. -/
theorem claim_C1_amended_witness :
    0 < (sync_rec.mk 0 9 4 0 0 0 0 0 []).uidM ∨
      0 < (sync_rec.mk 0 9 4 0 0 0 0 0 []).uidS :=
  claim_C1_amended true false (StateHeader.mk 1 9 1 0 9)
    [sync_rec.mk 7 9 4 0 0 0 0 0 []] (by decide)
    (sync_rec.mk 0 9 4 0 0 0 0 0 []) (by decide) (by decide)

/-! ## Claim C9: the UIDVALIDITY gate of `box_selected` (sync.c:911-932)
After state load and journal replay, each side with a recorded
UIDVALIDITY (`uidval[t] >= 0`) differing from the opened mailbox's is an
error; any mismatch bails with `SYNC_FAIL` before the new state file or
the journal is opened for writing, before `prepare_opts` and before any
`load_box`.  The outward actions of the non-bailing tail are modelled as
an effect list (sync.c:921-991). -/

def OPEN_OLD : Nat := 1
def OPEN_NEW : Nat := 2
def OPEN_FLAGS : Nat := 4
def OPEN_SIZE : Nat := 8
def OPEN_EXPUNGE : Nat := 32
def OPEN_SETFLAGS : Nat := 64
def OPEN_APPEND : Nat := 128
def OPEN_FIND : Nat := 256
def OPEN_TIME : Nat := 512

/-- `mvBit(in,ib,ob) = (unsigned char)(in * ob / ib)` of isync.h. -/
def mvBit (inp ib ob : Nat) : Nat := inp * ob / ib % 256

/-- Channel and store configuration consumed by the `opts` computation
(sync.c:934-966). -/
structure ChanConf where
  opsM : Nat
  opsS : Nat
  maxMessages : Nat
  maxSizeNeqIntMaxM : Bool
  maxSizeNeqIntMaxS : Bool
  trashM : Bool
  trashS : Bool
  trashOnlyNewM : Bool
  trashOnlyNewS : Bool
  trashRemoteNewM : Bool
  trashRemoteNewS : Bool
deriving DecidableEq, Repr

/-- One iteration of the `for (t = 0; t < 2; t++)` opts loop
(sync.c:935-962), for side `t` with ops `opsT`; `ot`/`oo` are `opts[t]`
and `opts[1-t]` accumulated so far; `trashO`/`trashRemoteNewO` describe
the other side's store. -/
def optsStep (opsT : Nat) (maxSizeNeq trashT trashOnlyNewT trashO trashRemoteNewO : Bool)
    (ot oo : Nat) : Nat × Nat :=
  let p :=
    if opsT &&& (OP_DELETE ||| OP_FLAGS) != 0 then
      (ot ||| OPEN_SETFLAGS,
       (oo ||| OPEN_OLD) ||| (if opsT &&& OP_FLAGS != 0 then OPEN_FLAGS else 0))
    else (ot, oo)
  let q :=
    if opsT &&& (OP_NEW ||| OP_RENEW) != 0 then
      (p.1 ||| OPEN_APPEND,
       (((p.2 ||| (if opsT &&& OP_RENEW != 0 then OPEN_OLD else 0)) |||
         (if opsT &&& OP_NEW != 0 then OPEN_NEW else 0)) |||
         (if opsT &&& OP_EXPUNGE != 0 then OPEN_FLAGS else 0)) |||
         (if maxSizeNeq then OPEN_SIZE else 0))
    else p
  if opsT &&& OP_EXPUNGE != 0 then
    if trashT then
      (((q.1 ||| OPEN_EXPUNGE) ||| (if !trashOnlyNewT then OPEN_OLD else 0)) |||
        (OPEN_NEW ||| OPEN_FLAGS), q.2)
    else if trashO && trashRemoteNewO then
      ((q.1 ||| OPEN_EXPUNGE) ||| (OPEN_NEW ||| OPEN_FLAGS), q.2)
    else (q.1 ||| OPEN_EXPUNGE, q.2)
  else q

/-- The per-record opts scan run only when the state file had entries
(`if (line)`, sync.c:966-977); the accumulator is
`(opts[M], opts[S], S_FIND on M, S_FIND on S)`. -/
def optsRecStep (acc : Nat × Nat × Bool × Bool) (r : sync_rec) : Nat × Nat × Bool × Bool :=
  if r.status &&& S_DEAD != 0 then acc
  else
    let acc1 :=
      if (mvBit r.status S_EXPIRE S_EXPIRED ^^^ r.status) &&& S_EXPIRED != 0 then
        (acc.1, acc.2.1 ||| (OPEN_OLD ||| OPEN_FLAGS), acc.2.2.1, acc.2.2.2)
      else acc
    if !r.tuid.isEmpty then
      if r.uidM == -2 then
        (acc1.1 ||| (OPEN_NEW ||| OPEN_FIND), acc1.2.1, true, acc1.2.2.2)
      else if r.uidS == -2 then
        (acc1.1, acc1.2.1 ||| (OPEN_NEW ||| OPEN_FIND), acc1.2.2.1, true)
      else acc1
    else acc1

/-- The whole opts computation of `box_selected` (sync.c:933-977). -/
def computeOpts (cc : ChanConf) (hadLine : Bool) (srecs : List sync_rec) :
    Nat × Nat × Bool × Bool :=
  let m := optsStep cc.opsM cc.maxSizeNeqIntMaxM cc.trashM cc.trashOnlyNewM
    cc.trashS cc.trashRemoteNewS 0 0
  let s := optsStep cc.opsS cc.maxSizeNeqIntMaxS cc.trashS cc.trashOnlyNewS
    cc.trashM cc.trashRemoteNewM m.2 m.1
  let oS :=
    if cc.opsS &&& (OP_NEW ||| OP_RENEW) != 0 && cc.maxMessages != 0 then
      s.1 ||| (((OPEN_OLD ||| OPEN_NEW) ||| OPEN_FLAGS) ||| OPEN_TIME)
    else s.1
  if hadLine then srecs.foldl optsRecStep (s.2, oS, false, false)
  else (s.2, oS, false, false)

/-- The outward actions of the tail of `box_selected`. -/
inductive SyncEffect where
  | openNewState
  | openJournalAppend
  | journalVersionLine
  | prepareOpts (t : Nat) (opts : Nat)
  | loadBox (t : Nat) (minwuid : Int)
deriving DecidableEq, Repr

/-- The tail of `box_selected` after journal replay (sync.c:911-991):
the UIDVALIDITY gate, then the file opens, the journal version line when
the journal is fresh, `prepare_opts` for both sides and the `load_box`
calls (`load_box(M)` only when `smaxxuid` is zero; `load_box(S)` unless
the master load already finished the run, which the driver decides —
parameter `loadMDone`).  Returns the `ret` error code set (if bailing)
and the effects issued. -/
def box_selected_tail (uidvalM uidvalS ctxUvM ctxUvS : Int) (cc : ChanConf)
    (hadLine : Bool) (srecs : List sync_rec) (smaxxuid : Int)
    (ctxOptsM ctxOptsS : Nat) (loadMDone : Bool) : Option Nat × List SyncEffect :=
  let t1 : Nat :=
    (if 0 ≤ uidvalM ∧ uidvalM ≠ ctxUvM then 1 else 0) +
    (if 0 ≤ uidvalS ∧ uidvalS ≠ ctxUvS then 1 else 0)
  if t1 ≠ 0 then (some SYNC_FAIL, [])
  else
    let co := computeOpts cc hadLine srecs
    (none,
      ([SyncEffect.openNewState, SyncEffect.openJournalAppend] ++
        (if !hadLine then [SyncEffect.journalVersionLine] else [])) ++
      ([SyncEffect.prepareOpts 0 co.1, SyncEffect.prepareOpts 1 co.2.1] ++
        ((if smaxxuid == 0 then
            [SyncEffect.loadBox 0 (if ctxOptsM &&& OPEN_OLD != 0 then 1 else INT_MAX)]
          else []) ++
         (if smaxxuid == 0 && loadMDone then []
          else [SyncEffect.loadBox 1
            (if ctxOptsS &&& OPEN_OLD != 0 then 1 else INT_MAX)]))))

/-- Claim C9: a recorded UIDVALIDITY (non-negative) differing from the
opened mailbox's on either side makes `box_selected` bail with
`SYNC_FAIL` before any outward action: no new-state or journal open, no
version line, no `prepare_opts`, no `load_box` — state file, journal and
mailboxes stay untouched. -/
theorem claim_C9 (uidvalM uidvalS ctxUvM ctxUvS : Int) (cc : ChanConf)
    (hadLine : Bool) (srecs : List sync_rec) (smaxxuid : Int)
    (ctxOptsM ctxOptsS : Nat) (loadMDone : Bool)
    (hmis : (0 ≤ uidvalM ∧ uidvalM ≠ ctxUvM) ∨ (0 ≤ uidvalS ∧ uidvalS ≠ ctxUvS)) :
    box_selected_tail uidvalM uidvalS ctxUvM ctxUvS cc hadLine srecs smaxxuid
      ctxOptsM ctxOptsS loadMDone = (some SYNC_FAIL, []) := by
  unfold box_selected_tail
  rcases hmis with h | h
  · rw [if_pos (by rw [if_pos h]; simp)]
  · rw [if_pos (by rw [if_pos h]; simp [Nat.add_eq_zero])]

/-- Witness for C9 at a concrete input: master UIDVALIDITY recorded as 3
but the mailbox reports 5. -/
theorem claim_C9_witness :
    box_selected_tail 3 1 5 1 (ChanConf.mk 255 255 10 true true true true
        false false false false) true [] 0 0 0 false = (some SYNC_FAIL, []) :=
  claim_C9 3 1 5 1 (ChanConf.mk 255 255 10 true true true true
    false false false false) true [] 0 0 0 false (Or.inl (by decide))

/-! ## Claim C10: the `DRV_MSG_BAD` taxonomy
(`msg_fetched` sync.c:414-425, `msg_stored` sync.c:436-450, `check_ret`
sync.c:543-556, `msg_copied` sync.c:1389-1413, `msg_trashed`
sync.c:1590-1603, `msg_rtrashed` sync.c:1605-1623).  The control state
models `ret`, the cancel flag (`ST_SENT_CANCEL`/`ST_CANCELED` of either
side) and the per-side progress counters. -/

structure SyncCtl where
  ret : Nat
  cancelSent : Bool
  newDoneM : Nat
  newDoneS : Nat
  trashDoneM : Nat
  trashDoneS : Nat
deriving DecidableEq, Repr

/-- `svars->new_done[t]++`. -/
def SyncCtl.bumpNew (c : SyncCtl) (t : Nat) : SyncCtl :=
  if t = 0 then { c with newDoneM := c.newDoneM + 1 }
  else { c with newDoneS := c.newDoneS + 1 }

/-- `svars->trash_done[t]++`. -/
def SyncCtl.bumpTrash (c : SyncCtl) (t : Nat) : SyncCtl :=
  if t = 0 then { c with trashDoneM := c.trashDoneM + 1 }
  else { c with trashDoneS := c.trashDoneS + 1 }

/-- `cancel_sync` (sync.c:483-500): sends cancels to both drivers; here
only the control-flow fact that cancellation is under way. -/
def cancel_sync (c : SyncCtl) : SyncCtl := { c with cancelSent := true }

/-- `check_ret` (sync.c:543-556): `DRV_CANCELED` stops the callback;
`DRV_BOX_BAD` sets `SYNC_FAIL` and cancels both sides; otherwise the
callback stops only if a cancel is already pending (`check_cancel`). -/
def check_ret (sts : Nat) (c : SyncCtl) : Bool × SyncCtl :=
  if sts == DRV_CANCELED then (true, c)
  else if sts == DRV_BOX_BAD then
    (true, { c with ret := c.ret ||| SYNC_FAIL, cancelSent := true })
  else (c.cancelSent, c)

/-- The driver-to-sync status mapping of `msg_fetched` (sync.c:414-425);
`none` means the copy proceeds to `store_msg`. -/
def msg_fetched_map (sts : Nat) : Option Nat :=
  if sts == DRV_OK then none
  else if sts == DRV_CANCELED then some SYNC_CANCELED
  else if sts == DRV_MSG_BAD then some SYNC_NOGOOD
  else some SYNC_FAIL

/-- The driver-to-sync status mapping of `msg_stored` (sync.c:436-450). -/
def msg_stored_map (sts : Nat) : Nat :=
  if sts == DRV_OK then SYNC_OK
  else if sts == DRV_CANCELED then SYNC_CANCELED
  else if sts == DRV_MSG_BAD then SYNC_NOGOOD
  else SYNC_FAIL

/-- `msg_copied` (sync.c:1389-1413): the record, the other side's
`maxuid`, the journal entries written, the `S_FIND` bit set, and the
control state.  `SYNC_OK` runs `msg_copied_p2`; `SYNC_NOGOOD` kills the
record with a `-` journal entry; other failures cancel the channel
without counting the message done. -/
def msg_copied (sts : Nat) (uid : Int) (t : Nat) (srec : sync_rec)
    (tmsgUid : Int) (tmsgPaired : Bool) (maxuidO : Int) (ctl : SyncCtl) :
    sync_rec × Int × List JEntry × Bool × SyncCtl :=
  if sts == SYNC_CANCELED then (srec, maxuidO, [], false, ctl)
  else if sts == SYNC_OK then
    let p := msg_copied_p2 t srec tmsgUid tmsgPaired maxuidO uid
    (p.1, p.2.1, p.2.2, decide (uid < 0), ctl.bumpNew t)
  else if sts == SYNC_NOGOOD then
    ({ srec with status := S_DEAD }, maxuidO,
     [JEntry.kill srec.uidM srec.uidS], false, ctl.bumpNew t)
  else (srec, maxuidO, [], false, cancel_sync ctl)

/-- `msg_trashed` (sync.c:1590-1603): a native trash failure of
`DRV_MSG_BAD` is first rewritten to `DRV_BOX_BAD`, then `check_ret`
runs; on success `trash_done[t]` advances. -/
def msg_trashed (sts : Nat) (t : Nat) (ctl : SyncCtl) : SyncCtl :=
  let sts2 := if sts == DRV_MSG_BAD then DRV_BOX_BAD else sts
  let cr := check_ret sts2 ctl
  if cr.1 then cr.2 else cr.2.bumpTrash t

/-- `msg_rtrashed` (sync.c:1605-1623): a remote trash (copy into the
other side's trash, invoked with `INV_AUX`, hence `t ^= 1`) counts both
`SYNC_OK` and `SYNC_NOGOOD` as done; other failures cancel. -/
def msg_rtrashed (sts : Nat) (t : Nat) (ctl : SyncCtl) : SyncCtl :=
  if sts == SYNC_CANCELED then ctl
  else if sts == SYNC_OK || sts == SYNC_NOGOOD then ctl.bumpTrash (1 - t)
  else cancel_sync ctl

/-- Counterexample to claim C10: a `DRV_MSG_BAD` during a remote trash is
not escalated to `DRV_BOX_BAD`.  The copy chain maps it to
`SYNC_NOGOOD`, and `msg_rtrashed` treats that as success ("the message
is gone or heavily busted"): `ret` stays clear of `SYNC_FAIL`, nothing
is cancelled, and the trash is counted done. -/
theorem claim_C10_counterexample :
    msg_fetched_map DRV_MSG_BAD = some SYNC_NOGOOD ∧
    msg_rtrashed SYNC_NOGOOD 0 (SyncCtl.mk 0 false 0 0 0 0) =
      SyncCtl.mk 0 false 0 0 0 1 :=
  ⟨by decide, by decide⟩

/-- Claim C10 amended: the taxonomy holds for copies and for native
trashes, but not for remote trashes.  A `DRV_MSG_BAD` in the copy chain
surfaces as `SYNC_NOGOOD` (both at fetch and at store); `msg_copied` then
kills the record with a `-` journal entry while leaving `ret` and the
cancel flag untouched; `msg_trashed` escalates `DRV_MSG_BAD` to
`DRV_BOX_BAD`, setting `SYNC_FAIL` and cancelling; `msg_rtrashed`
however counts `SYNC_NOGOOD` as a completed trash, again leaving `ret`
and the cancel flag untouched. -/
theorem claim_C10_amended (t : Nat) (uid tmsgUid maxuidO : Int) (paired : Bool)
    (srec : sync_rec) (ctl : SyncCtl) :
    msg_fetched_map DRV_MSG_BAD = some SYNC_NOGOOD ∧
    msg_stored_map DRV_MSG_BAD = SYNC_NOGOOD ∧
    msg_copied SYNC_NOGOOD uid t srec tmsgUid paired maxuidO ctl =
      ({ srec with status := S_DEAD }, maxuidO,
        [JEntry.kill srec.uidM srec.uidS], false, SyncCtl.bumpNew ctl t) ∧
    (SyncCtl.bumpNew ctl t).ret = ctl.ret ∧
    (SyncCtl.bumpNew ctl t).cancelSent = ctl.cancelSent ∧
    msg_trashed DRV_MSG_BAD t ctl =
      { ctl with ret := ctl.ret ||| SYNC_FAIL, cancelSent := true } ∧
    msg_rtrashed SYNC_NOGOOD t ctl = SyncCtl.bumpTrash ctl (1 - t) ∧
    (SyncCtl.bumpTrash ctl (1 - t)).ret = ctl.ret ∧
    (SyncCtl.bumpTrash ctl (1 - t)).cancelSent = ctl.cancelSent := by
  refine ⟨rfl, rfl, rfl, ?_, ?_, rfl, rfl, ?_, ?_⟩
  · unfold SyncCtl.bumpNew; split <;> rfl
  · unfold SyncCtl.bumpNew; split <;> rfl
  · unfold SyncCtl.bumpTrash; split <;> rfl
  · unfold SyncCtl.bumpTrash; split <;> rfl
